import Mathlib

/-!
# Archimedes keyboard/mouse link engine (`archie.c`)

A shallow embedding of the keyboard part of `src/archie.c`: the transmit
queue (`archie_kbd_enqueue`, `archie_check_queue`), the send-or-queue gate
(`archie_kbd_send`, `archie_kbd_tx`), `archie_kbd_reset`, the producers
`archie_kbd` and `archie_mouse`, and the poll step `archie_handle_kbd`
(compiled with `HOLD_OFF_TIME` undefined, as in the source).

The C globals become the fields of `State`; every function takes the state
and returns the new one.  The timer (`GetTimer`, `CheckTimer`) and the SPI
receive path are outside the file and are taken as the parameter `Env`.
Bytes put on the wire by `archie_kbd_tx` are recorded in the trace field
`tx_log`; the other trace fields record calls and never influence the
program variables.
-/

namespace Archie

/-! ## Constants -/

/-- First value of `enum state`. -/
abbrev STATE_HRST : Nat := 0
/-- Second value of `enum state`. -/
abbrev STATE_RAK1 : Nat := 1
/-- Third value of `enum state`. -/
abbrev STATE_RAK2 : Nat := 2
/-- Fourth value of `enum state`. -/
abbrev STATE_IDLE : Nat := 3
/-- Fifth value of `enum state`. -/
abbrev STATE_WAIT4ACK1 : Nat := 4
/-- Sixth value of `enum state`. -/
abbrev STATE_WAIT4ACK2 : Nat := 5
/-- Seventh value of `enum state` (only used when `HOLD_OFF_TIME` is defined). -/
abbrev STATE_HOLD_OFF : Nat := 6

/-- Controller command `HRST`. -/
abbrev HRST : Nat := 0xff
/-- Controller command `RAK1`. -/
abbrev RAK1 : Nat := 0xfe
/-- Controller command `RAK2`. -/
abbrev RAK2 : Nat := 0xfd
/-- Controller command `RQID`. -/
abbrev RQID : Nat := 0x20
/-- Keyboard id reply `KBID`. -/
abbrev KBID : Nat := 0x80
/-- Key down data marker `KDDA`. -/
abbrev KDDA : Nat := 0xc0
/-- Key up data marker `KUDA`. -/
abbrev KUDA : Nat := 0xd0
/-- Byte acknowledge `BACK`. -/
abbrev BACK : Nat := 0x3f
/-- Mode acknowledge `NACK`: scan off, mouse off. -/
abbrev NACK : Nat := 0x30
/-- Mode acknowledge `SACK`: scan on, mouse off. -/
abbrev SACK : Nat := 0x31
/-- Mode acknowledge `MACK`: scan off, mouse on. -/
abbrev MACK : Nat := 0x32
/-- Mode acknowledge `SMAK`: scan on, mouse on. -/
abbrev SMAK : Nat := 0x33

/-- Number of slots of `tx_queue`. -/
abbrev QUEUE_LEN : Nat := 8

/-- The macro `QUEUE_NEXT(a)  ((a+1)&(QUEUE_LEN-1))`. -/
def QUEUE_NEXT (a : Nat) : Nat := (a + 1) &&& (QUEUE_LEN - 1)

/-- Bit of `flags`: keyboard scan enabled. -/
abbrev FLAG_SCAN_ENABLED : Nat := 0x01
/-- Bit of `flags`: mouse enabled. -/
abbrev FLAG_MOUSE_ENABLED : Nat := 0x02

/-! ## State -/

/-- One invocation of `archie_kbd_tx`: the value of `kbd_state` on entry, and
the two arguments `state` and `byte`. -/
structure TxEvent where
  prev_state : Nat
  state : Nat
  byte : Nat
deriving DecidableEq, Repr

/-- The frame `(state, byte)` of a transmission. -/
def TxEvent.frame (e : TxEvent) : Nat × Nat := (e.state, e.byte)

/-- The file-scope variables of the keyboard engine, the function-static
`buts` of `archie_mouse`, and four trace fields.

* `tx_queue i = (tx_queue[i][0], tx_queue[i][1])`.
* `tx_log`: the calls of `archie_kbd_tx`, oldest first.
* `send_log`: the frames handed to `archie_kbd_send`, oldest first.
* `overflows`: how often `archie_kbd_enqueue` took its overflow branch.
* `overtakes`: how often `archie_kbd_send` called `archie_kbd_tx` while
  `tx_queue_rptr != tx_queue_wptr`. -/
structure State where
  kbd_state : Nat
  tx_queue : Nat → Nat × Nat
  tx_queue_rptr : Nat
  tx_queue_wptr : Nat
  ack_timeout : Nat
  mouse_x : Int
  mouse_y : Int
  flags : Nat
  buts : Nat
  tx_log : List TxEvent
  send_log : List (Nat × Nat)
  overflows : Nat
  overtakes : Nat

/-- What one call receives from outside the file: the value `GetTimer(ms)`
returns, the value `CheckTimer(t)` returns, and the byte read from the
controller, if one is available (`spi_in() == 0xa1`). -/
structure Env where
  GetTimer : Nat → Nat
  CheckTimer : Nat → Bool
  rx : Option Nat

/-- The variables as C initialises them at program start (all zero). -/
def init_state : State where
  kbd_state := STATE_HRST
  tx_queue := fun _ => (0, 0)
  tx_queue_rptr := 0
  tx_queue_wptr := 0
  ack_timeout := 0
  mouse_x := 0
  mouse_y := 0
  flags := 0
  buts := 0
  tx_log := []
  send_log := []
  overflows := 0
  overtakes := 0

/-! ## The functions of `archie.c` -/

/-- The function `archie_kbd_enqueue` (archie.c 190-200).  The overflow branch only
prints a debug message; it is counted in `overflows`. -/
def archie_kbd_enqueue (s : State) (state byte : Nat) : State :=
  if QUEUE_NEXT s.tx_queue_wptr = s.tx_queue_rptr then
    { s with overflows := s.overflows + 1 }
  else
    { s with
      tx_queue := fun i => if i = s.tx_queue_wptr then (state, byte) else s.tx_queue i
      tx_queue_wptr := QUEUE_NEXT s.tx_queue_wptr }

/-- The function `archie_kbd_tx` (archie.c 202-210): put `byte` on the wire, set
`kbd_state`, arm the timer. -/
def archie_kbd_tx (env : Env) (s : State) (state byte : Nat) : State :=
  { s with
    tx_log := s.tx_log ++ [{ prev_state := s.kbd_state, state := state, byte := byte }]
    kbd_state := state
    ack_timeout := env.GetTimer 10 }

/-- The function `archie_kbd_send` (archie.c 212-218): transmit unless the link
waits for an ack, else enqueue. -/
def archie_kbd_send (env : Env) (s : State) (state byte : Nat) : State :=
  let s := { s with send_log := s.send_log ++ [(state, byte)] }
  if s.kbd_state ≠ STATE_WAIT4ACK1 ∧ s.kbd_state ≠ STATE_WAIT4ACK2 then
    archie_kbd_tx env
      { s with overtakes :=
          if s.tx_queue_rptr = s.tx_queue_wptr then s.overtakes else s.overtakes + 1 }
      state byte
  else
    archie_kbd_enqueue s state byte

/-- The function `archie_kbd_reset` (archie.c 220-226). -/
def archie_kbd_reset (s : State) : State :=
  { s with
    tx_queue_rptr := 0
    tx_queue_wptr := 0
    kbd_state := STATE_HRST
    mouse_x := 0
    mouse_y := 0
    flags := 0 }

/-- The keyboard part of `archie_init` (its last two statements). -/
def archie_init (env : Env) (s : State) : State :=
  { archie_kbd_send env s STATE_RAK1 HRST with ack_timeout := env.GetTimer 20 }

/-- The up/down marker of `archie_kbd`: `(code&0x8000)?KUDA:KDDA`. -/
def key_marker (code : Nat) : Nat := if code &&& 0x8000 ≠ 0 then KUDA else KDDA

/-- The function `archie_kbd` (archie.c 298-318).  `code` is an `unsigned short`;
the second argument of `archie_kbd_send` is an `unsigned char`, so the value
passed is cut to 8 bits. -/
def archie_kbd (env : Env) (s : State) (code : Nat) : State :=
  if s.kbd_state ≤ STATE_RAK2 then s
  else if s.flags &&& FLAG_SCAN_ENABLED = 0 then s
  else
    let s := archie_kbd_send env s STATE_WAIT4ACK1 ((key_marker code ||| (code >>> 4)) % 256)
    archie_kbd_send env s STATE_WAIT4ACK2 ((key_marker code ||| (code &&& 0x0f)) % 256)

/-- Storing an `int` into a `short` (two's complement, 16 bits). -/
def toShort (z : Int) : Int := (z + 32768) % 65536 - 32768

/-- The two statements `if(v > 63) v = 63; if(v < -64) v = -64;`. -/
def mouse_limit (v : Int) : Int :=
  let v := if v > 63 then 63 else v
  if v < -64 then -64 else v

/-- The expression `v & 0x7f` of a `short` passed as an `unsigned char`: the
low seven bits of the two's complement representation. -/
def low7 (v : Int) : Nat := (v % 128).toNat

/-- The table `remap` of `archie_mouse`. -/
def remap (s : Nat) : Nat :=
  match s with
  | 0 => 0
  | 1 => 2
  | 2 => 1
  | _ => 0

/-- One pass of the body of the loop `for(s=0;s<3;s++)` of `archie_mouse`. -/
def mouse_button (env : Env) (b : Nat) (st : State) (s : Nat) : State :=
  let mask := 1 <<< s
  if (b &&& mask) ≠ (st.buts &&& mask) then
    let pfx := if b &&& mask ≠ 0 then KDDA else KUDA
    let st := archie_kbd_send env st STATE_WAIT4ACK1 (pfx ||| 0x07)
    archie_kbd_send env st STATE_WAIT4ACK2 (pfx ||| remap s)
  else st

/-- The first block of `archie_mouse`: add the deltas to the accumulator and
limit it (`mouse_x += x; ...; mouse_y -= y; ...`). -/
def mouse_accumulate (s : State) (x y : Int) : State :=
  let s := { s with mouse_x := mouse_limit (toShort (s.mouse_x + x)) }
  { s with mouse_y := mouse_limit (toShort (s.mouse_y - y)) }

/-- The second block of `archie_mouse`: report the movement if the mouse is
enabled, there is something to report and the link is idle. -/
def mouse_flush (env : Env) (s : State) : State :=
  if s.flags &&& FLAG_MOUSE_ENABLED ≠ 0 ∧ (s.mouse_x ≠ 0 ∨ s.mouse_y ≠ 0) then
    if s.kbd_state = STATE_IDLE then
      let s := archie_kbd_send env s STATE_WAIT4ACK1 (low7 s.mouse_x)
      let s := archie_kbd_send env s STATE_WAIT4ACK2 (low7 s.mouse_y)
      { s with mouse_x := 0, mouse_y := 0 }
    else s
  else s

/-- The third block of `archie_mouse`: report the button changes if key
scanning is enabled. -/
def mouse_buttons (env : Env) (s : State) (b : Nat) : State :=
  if s.flags &&& FLAG_SCAN_ENABLED ≠ 0 then
    let s := [0, 1, 2].foldl (mouse_button env b) s
    { s with buts := b }
  else s

/-- The function `archie_mouse` (archie.c 320-365).  `x` and `y` are the `char`
arguments, read as signed. -/
def archie_mouse (env : Env) (s : State) (b : Nat) (x y : Int) : State :=
  let s := mouse_accumulate s x y
  if s.kbd_state ≤ STATE_RAK2 then s
  else mouse_buttons env (mouse_flush env s) b

/-- The function `archie_check_queue` (archie.c 367-373). -/
def archie_check_queue (env : Env) (s : State) : State :=
  if s.tx_queue_rptr = s.tx_queue_wptr then s
  else
    let s' := archie_kbd_tx env s (s.tx_queue s.tx_queue_rptr).1 (s.tx_queue s.tx_queue_rptr).2
    { s' with tx_queue_rptr := QUEUE_NEXT s.tx_queue_rptr }

/-- The four `if` statements of the cases `NACK`, `SACK`, `MACK`, `SMAK` of
`archie_handle_kbd`, as a function of `flags`. -/
def mode_ack_flags (flags data : Nat) : Nat :=
  let flags :=
    if (data = SACK ∨ data = SMAK) ∧ flags &&& FLAG_SCAN_ENABLED = 0 then
      flags ||| FLAG_SCAN_ENABLED
    else flags
  let flags :=
    if (data = NACK ∨ data = MACK) ∧ flags &&& FLAG_SCAN_ENABLED ≠ 0 then
      flags &&& (0xff ^^^ FLAG_SCAN_ENABLED)
    else flags
  let flags :=
    if (data = MACK ∨ data = SMAK) ∧ flags &&& FLAG_MOUSE_ENABLED = 0 then
      flags ||| FLAG_MOUSE_ENABLED
    else flags
  if (data = NACK ∨ data = SACK) ∧ flags &&& FLAG_MOUSE_ENABLED ≠ 0 then
    flags &&& (0xff ^^^ FLAG_MOUSE_ENABLED)
  else flags

/-- The `switch(data)` of `archie_handle_kbd`. -/
def handle_rx (env : Env) (s : State) (data : Nat) : State :=
  if data = HRST then
    { archie_kbd_send env (archie_kbd_reset s) STATE_RAK1 HRST with
      ack_timeout := env.GetTimer 20 }
  else if data = RAK1 then
    if s.kbd_state = STATE_RAK1 then
      { archie_kbd_send env s STATE_RAK2 RAK1 with ack_timeout := env.GetTimer 20 }
    else { s with kbd_state := STATE_HRST }
  else if data = RAK2 then
    if s.kbd_state = STATE_RAK2 then
      { archie_kbd_send env s STATE_IDLE RAK2 with ack_timeout := env.GetTimer 20 }
    else { s with kbd_state := STATE_HRST }
  else if data = RQID then
    archie_kbd_send env s STATE_IDLE (KBID ||| 1)
  else if data = BACK then
    if s.kbd_state ≠ STATE_WAIT4ACK1 then { s with kbd_state := STATE_HRST }
    else archie_check_queue env { s with kbd_state := STATE_IDLE }
  else if data = NACK ∨ data = SACK ∨ data = MACK ∨ data = SMAK then
    archie_check_queue env
      { s with flags := mode_ack_flags s.flags data, kbd_state := STATE_IDLE }
  else s

/-- The first block of `archie_handle_kbd`: timeout waiting for an ack. -/
def ack_timeout_check (env : Env) (s : State) : State :=
  if s.kbd_state = STATE_WAIT4ACK1 ∨ s.kbd_state = STATE_WAIT4ACK2 then
    if env.CheckTimer s.ack_timeout then { s with kbd_state := STATE_IDLE } else s
  else s

/-- The second block of `archie_handle_kbd`: timeout in the reset sequence. -/
def reset_timeout_check (env : Env) (s : State) : State :=
  if s.kbd_state ≤ STATE_RAK2 then
    if env.CheckTimer s.ack_timeout then
      { archie_kbd_send env s STATE_RAK1 HRST with ack_timeout := env.GetTimer 20 }
    else s
  else s

/-- The function `archie_handle_kbd` (archie.c 375-502, `HOLD_OFF_TIME` undefined). -/
def archie_handle_kbd (env : Env) (s : State) : State :=
  let s := reset_timeout_check env (ack_timeout_check env s)
  match env.rx with
  | some data => handle_rx env s data
  | none => s

/-! ## Executions -/

/-- One call from outside: a key event, a pointer event or a poll. -/
inductive Event where
  | kbd (env : Env) (code : Nat)
  | mouse (env : Env) (b : Nat) (x y : Int)
  | poll (env : Env)

/-- Perform one call. -/
def step (s : State) (e : Event) : State :=
  match e with
  | .kbd env code => archie_kbd env s code
  | .mouse env b x y => archie_mouse env s b x y
  | .poll env => archie_handle_kbd env s

/-- Perform a sequence of calls, first to last. -/
def run (s : State) (evs : List Event) : State := evs.foldl step s

/-! ## Views of the transmit queue -/

/-- Both queue indices are valid indices of `tx_queue`. -/
def QueueWF (s : State) : Prop := s.tx_queue_rptr < QUEUE_LEN ∧ s.tx_queue_wptr < QUEUE_LEN

instance QueueWF.decidable (s : State) : Decidable (QueueWF s) :=
  inferInstanceAs (Decidable (_ ∧ _))

/-- Number of frames waiting: the distance from `tx_queue_rptr` to
`tx_queue_wptr` around the ring. -/
def queue_count (s : State) : Nat :=
  (s.tx_queue_wptr + QUEUE_LEN - s.tx_queue_rptr) % QUEUE_LEN

/-- The waiting frames, oldest first: the slots from `tx_queue_rptr` up to
(not including) `tx_queue_wptr`. -/
def queue_frames (s : State) : List (Nat × Nat) :=
  (List.range (queue_count s)).map fun k => s.tx_queue ((s.tx_queue_rptr + k) % QUEUE_LEN)

/-- The frames put on the wire so far, oldest first. -/
def sent_frames (s : State) : List (Nat × Nat) := s.tx_log.map TxEvent.frame

/-- The bytes put on the wire so far, oldest first. -/
def sent_bytes (s : State) : List Nat := s.tx_log.map TxEvent.byte

/-! ## Sequences of queue operations -/

/-- A call of `archie_kbd_enqueue` or of `archie_check_queue`. -/
inductive QueueOp where
  | enqueue (state byte : Nat)
  | check (env : Env)

/-- Perform one queue operation. -/
def queue_step (s : State) (op : QueueOp) : State :=
  match op with
  | .enqueue state byte => archie_kbd_enqueue s state byte
  | .check env => archie_check_queue env s

/-- Perform a sequence of queue operations, first to last. -/
def queue_run (s : State) (ops : List QueueOp) : State := ops.foldl queue_step s

/-- The frames of those `archie_kbd_enqueue` calls of `ops`, performed from
`s` on, that did not take the overflow branch, in call order. -/
def accepted_frames (s : State) (ops : List QueueOp) : List (Nat × Nat) :=
  match ops with
  | [] => []
  | .enqueue state byte :: rest =>
    (if QUEUE_NEXT s.tx_queue_wptr = s.tx_queue_rptr then [] else [(state, byte)]) ++
      accepted_frames (archie_kbd_enqueue s state byte) rest
  | .check env :: rest => accepted_frames (archie_check_queue env s) rest

/-- An environment in which no timer expires and no byte arrives;
`GetTimer(ms)` returns `ms`. -/
def quiet_env : Env := { GetTimer := fun ms => ms, CheckTimer := fun _ => false, rx := none }

/-- An environment like `quiet_env` in which the byte `d` arrives. -/
def rx_env (d : Nat) : Env := { quiet_env with rx := some d }

/-- What a predicate on states must satisfy to be kept by every call: it is
kept by the assignments to the scalar variables, by the accumulator update
and its clearing, and by `archie_kbd_send`, `archie_kbd_reset` and
`archie_check_queue` entered with `kbd_state = STATE_IDLE`. -/
structure StepInvariant (P : State → Prop) : Prop where
  control : ∀ (s : State) (k a f b : Nat), P s →
    P { s with kbd_state := k, ack_timeout := a, flags := f, buts := b }
  accumulate : ∀ (s : State) (x y : Int), P s → P (mouse_accumulate s x y)
  flushed : ∀ s : State, P s → P { s with mouse_x := 0, mouse_y := 0 }
  send : ∀ (env : Env) (s : State) (state byte : Nat), P s → P (archie_kbd_send env s state byte)
  check : ∀ (env : Env) (s : State), P s →
    P (archie_check_queue env { s with kbd_state := STATE_IDLE })
  reset : ∀ s : State, P s → P (archie_kbd_reset s)

/-! ## Sample states -/

/-- A state waiting for the first ack whose queue holds 7 frames. -/
def full_queue_state : State :=
  { init_state with
    kbd_state := STATE_WAIT4ACK1
    flags := FLAG_SCAN_ENABLED
    tx_queue := fun i => if i % 2 = 0 then (STATE_WAIT4ACK2, 0xc2) else (STATE_WAIT4ACK1, 0xc1)
    tx_queue_wptr := 7 }

/-- A state waiting for the first ack whose queue holds the one frame
`(STATE_WAIT4ACK2, 0xc2)`. -/
def one_frame_state : State :=
  { init_state with
    kbd_state := STATE_WAIT4ACK1
    flags := FLAG_SCAN_ENABLED
    tx_queue := fun i => if i = 0 then (STATE_WAIT4ACK2, 0xc2) else (0, 0)
    tx_queue_wptr := 1 }

/-- An idle link with key scanning enabled and an empty queue. -/
def idle_scan_state : State :=
  { init_state with kbd_state := STATE_IDLE, flags := FLAG_SCAN_ENABLED }

/-- An idle link with the mouse enabled, key scanning disabled and an empty queue. -/
def idle_mouse_state : State :=
  { init_state with kbd_state := STATE_IDLE, flags := FLAG_MOUSE_ENABLED }

/-- A link waiting for the first ack with the mouse enabled, key scanning
disabled and an empty queue. -/
def busy_mouse_state : State :=
  { init_state with kbd_state := STATE_WAIT4ACK1, flags := FLAG_MOUSE_ENABLED }

/-- A run without any timer expiry: reset handshake, `SACK` (enables key
scanning), key `0x12`, `RQID` while waiting for the first ack, key `0x34`,
`BACK`, `SACK`, key `0x56`, `BACK`. -/
def overtake_trace : List Event :=
  [.poll (rx_env HRST), .poll (rx_env RAK1), .poll (rx_env RAK2), .poll (rx_env SACK),
   .kbd quiet_env 0x12, .poll (rx_env RQID), .kbd quiet_env 0x34, .poll (rx_env BACK),
   .poll (rx_env SACK), .kbd quiet_env 0x56, .poll (rx_env BACK)]

/-- A run in which every frame is acknowledged before the next call: reset
handshake, `SACK`, key `0x12`, `BACK`, `SACK`. -/
def orderly_trace : List Event :=
  [.poll (rx_env HRST), .poll (rx_env RAK1), .poll (rx_env RAK2), .poll (rx_env SACK),
   .kbd quiet_env 0x12, .poll (rx_env BACK), .poll (rx_env SACK)]

/-- A run without any timer expiry: reset handshake, `MACK` (enables the
mouse), a pointer event `(1, 0)` that is flushed at once, a pointer event
`(100, 0)` while the link waits for `BACK`, then `BACK`, `MACK` and, on the
idle link, a pointer event `(-50, 0)`. -/
def saturating_trace : List Event :=
  [.poll (rx_env HRST), .poll (rx_env RAK1), .poll (rx_env RAK2), .poll (rx_env MACK),
   .mouse quiet_env 0 1 0, .mouse quiet_env 0 100 0, .poll (rx_env BACK),
   .poll (rx_env MACK), .mouse quiet_env 0 (-50) 0]

/-! ## Pointer events while the link is busy -/

/-- One call `archie_mouse(b, x, y)` together with what it receives from outside. -/
structure MouseCall where
  env : Env
  b : Nat
  x : Int
  y : Int

/-- Perform a sequence of `archie_mouse` calls, first to last. -/
def mouse_run (s : State) (calls : List MouseCall) : State :=
  calls.foldl (fun s c => archie_mouse c.env s c.b c.x c.y) s

/-- What the accumulator statements of `archie_mouse` compute over a sequence of
deltas when no 16-bit wrap occurs: starting from `acc`, each delta is added
and the result limited by `mouse_limit`. -/
def limited_sum (acc : Int) (ds : List Int) : Int :=
  ds.foldl (fun a d => mouse_limit (a + d)) acc

/-- The clamp of the specification, `clamp(v, -64, 63)`. -/
def clamp_spec (v : Int) : Int := max (-64) (min v 63)

/-! ## Further sample inputs -/

/-- An environment in which the timer has expired and no byte arrives. -/
def timeout_env : Env := { quiet_env with CheckTimer := fun _ => true }

/-- A run that ends with an ack timeout while frames are queued: reset
handshake, `SACK`, keys `0x12` and `0x34`, `BACK` (the link then waits for the
second ack with `0xc3`, `0xc4` queued), and a poll in which the timer has
expired and no byte arrives. -/
def stalled_trace : List Event :=
  [.poll (rx_env HRST), .poll (rx_env RAK1), .poll (rx_env RAK2), .poll (rx_env SACK),
   .kbd quiet_env 0x12, .kbd quiet_env 0x34, .poll (rx_env BACK), .poll timeout_env]

/-- A link waiting for the second ack, with key scanning enabled, the mouse
disabled and the one frame `(STATE_WAIT4ACK1, 0xc3)` queued. -/
def second_ack_state : State :=
  { init_state with
    kbd_state := STATE_WAIT4ACK2
    flags := FLAG_SCAN_ENABLED
    tx_queue := fun i => if i = 0 then (STATE_WAIT4ACK1, 0xc3) else (0, 0)
    tx_queue_wptr := 1 }

/-- A run without any timer expiry: reset handshake, `SMAK` (enables key
scanning and the mouse), a pointer event `(1, 0)` that is flushed at once, a
pointer event `(5, 0)` while the link waits for `BACK`, and then the byte
`RAK1`, which is not expected in `STATE_WAIT4ACK1`. -/
def violation_trace : List Event :=
  [.poll (rx_env HRST), .poll (rx_env RAK1), .poll (rx_env RAK2), .poll (rx_env SMAK),
   .mouse quiet_env 0 1 0, .mouse quiet_env 0 5 0, .poll (rx_env RAK1)]

/-- A run without any timer expiry: reset handshake, `SMAK`, a pointer event
with motion in both axes and all three buttons pressed (one frame transmitted,
seven queued), and then the byte `RQID`. -/
def full_queue_trace : List Event :=
  [.poll (rx_env HRST), .poll (rx_env RAK1), .poll (rx_env RAK2), .poll (rx_env SMAK),
   .mouse quiet_env 7 1 1, .poll (rx_env RQID)]

/-- A link waiting for the first ack with the mouse and key scanning both
enabled, an empty queue and no button stored. -/
def busy_both_state : State :=
  { init_state with
    kbd_state := STATE_WAIT4ACK1
    flags := FLAG_SCAN_ENABLED ||| FLAG_MOUSE_ENABLED }

/-! ## Button frames -/

/-- Hand the frames of a list to `archie_kbd_send`, first to last. -/
def send_all (env : Env) (s : State) (frames : List (Nat × Nat)) : State :=
  frames.foldl (fun s f => archie_kbd_send env s f.1 f.2) s

/-- The frame pair of the specification for logical button `k`, given the new
sample `b` and the stored sample `buts`: nothing if bit `k` is the same in
both; otherwise first the marker (`0xc0` down if the bit is set in `b`, `0xd0`
up otherwise) with the button-event code `0x07`, then the marker with the
remapped index (remap table `0 → 0, 1 → 2, 2 → 1`). -/
def button_pair (b buts k : Nat) : List (Nat × Nat) :=
  if b.testBit k = buts.testBit k then []
  else
    [(STATE_WAIT4ACK1, (if b.testBit k then 0xc0 else 0xd0) ||| 0x07),
     (STATE_WAIT4ACK2, (if b.testBit k then 0xc0 else 0xd0) ||| [0, 2, 1].getD k 0)]

/-- The button frames of the specification for one sample: the pairs of the
buttons 0, 1, 2 in ascending order. -/
def button_frames (b buts : Nat) : List (Nat × Nat) :=
  button_pair b buts 0 ++ button_pair b buts 1 ++ button_pair b buts 2

/-! # Theorems -/

/-! ## Basic facts -/

theorem QUEUE_NEXT_eq (a : Nat) : QUEUE_NEXT a = (a + 1) % 8 := by
  unfold QUEUE_NEXT
  exact Nat.and_pow_two_sub_one_eq_mod (a + 1) 3

theorem QUEUE_NEXT_lt (a : Nat) : QUEUE_NEXT a < 8 := by
  rw [QUEUE_NEXT_eq]; omega

theorem queue_full_iff (s : State) (hwf : QueueWF s) :
    QUEUE_NEXT s.tx_queue_wptr = s.tx_queue_rptr ↔ queue_count s = 7 := by
  obtain ⟨hr, hw⟩ := hwf
  simp only [QUEUE_NEXT_eq, queue_count, QUEUE_LEN] at *
  omega

theorem queue_empty_iff (s : State) (hwf : QueueWF s) :
    s.tx_queue_rptr = s.tx_queue_wptr ↔ queue_count s = 0 := by
  obtain ⟨hr, hw⟩ := hwf
  simp only [queue_count, QUEUE_LEN] at *
  omega

theorem queue_count_le (s : State) : queue_count s ≤ 7 := by
  simp only [queue_count, QUEUE_LEN]; omega

theorem enqueue_full (s : State) (state byte : Nat)
    (h : QUEUE_NEXT s.tx_queue_wptr = s.tx_queue_rptr) :
    archie_kbd_enqueue s state byte = { s with overflows := s.overflows + 1 } := by
  simp [archie_kbd_enqueue, h]

theorem enqueue_count (s : State) (state byte : Nat) (hwf : QueueWF s)
    (h : QUEUE_NEXT s.tx_queue_wptr ≠ s.tx_queue_rptr) :
    queue_count (archie_kbd_enqueue s state byte) = queue_count s + 1 := by
  obtain ⟨hr, hw⟩ := hwf
  simp only [archie_kbd_enqueue, if_neg h]
  simp only [QUEUE_NEXT_eq, queue_count, QUEUE_LEN] at *
  omega

theorem enqueue_wf (s : State) (state byte : Nat) (hwf : QueueWF s) :
    QueueWF (archie_kbd_enqueue s state byte) := by
  obtain ⟨hr, hw⟩ := hwf
  unfold archie_kbd_enqueue
  split
  · exact ⟨hr, hw⟩
  · exact ⟨hr, QUEUE_NEXT_lt _⟩

/-- C1: on a queue holding 7 frames `archie_kbd_enqueue` changes no program variable
(only the overflow is counted); on a queue holding fewer than 7 frames it leaves
exactly one frame more; the queue never holds more than 7 frames and a full queue
stays full. -/
theorem enqueue_capacity (s : State) (state byte : Nat) (hwf : QueueWF s) :
    (queue_count s = 7 →
      archie_kbd_enqueue s state byte = { s with overflows := s.overflows + 1 }) ∧
    (queue_count s < 7 →
      queue_count (archie_kbd_enqueue s state byte) = queue_count s + 1 ∧
      (archie_kbd_enqueue s state byte).tx_queue_rptr = s.tx_queue_rptr ∧
      (archie_kbd_enqueue s state byte).overflows = s.overflows) ∧
    queue_count (archie_kbd_enqueue s state byte) ≤ 7 ∧
    (queue_count s = 7 → queue_count (archie_kbd_enqueue s state byte) = 7) := by
  refine ⟨?_, ?_, queue_count_le _, ?_⟩
  · intro h
    exact enqueue_full s state byte ((queue_full_iff s hwf).mpr h)
  · intro h
    have hn : QUEUE_NEXT s.tx_queue_wptr ≠ s.tx_queue_rptr := by
      intro hf; have := (queue_full_iff s hwf).mp hf; omega
    refine ⟨enqueue_count s state byte hwf hn, ?_, ?_⟩ <;>
      simp [archie_kbd_enqueue, hn]
  · intro h
    rw [enqueue_full s state byte ((queue_full_iff s hwf).mpr h)]
    exact h

theorem enqueue_frames (s : State) (state byte : Nat) (hwf : QueueWF s)
    (h : QUEUE_NEXT s.tx_queue_wptr ≠ s.tx_queue_rptr) :
    queue_frames (archie_kbd_enqueue s state byte) = queue_frames s ++ [(state, byte)] := by
  have hc := enqueue_count s state byte hwf h
  obtain ⟨hr, hw⟩ := hwf
  unfold queue_frames
  rw [hc, List.range_succ, List.map_append]
  simp only [archie_kbd_enqueue, if_neg h, List.map_cons, List.map_nil]
  simp only [QUEUE_NEXT_eq, queue_count, QUEUE_LEN] at *
  congr 1
  · apply List.map_congr_left
    intro k hk
    rw [List.mem_range] at hk
    have : (s.tx_queue_rptr + k) % 8 ≠ s.tx_queue_wptr := by omega
    simp [this]
  · have : (s.tx_queue_rptr + (s.tx_queue_wptr + 8 - s.tx_queue_rptr) % 8) % 8
        = s.tx_queue_wptr := by omega
    simp [this]

theorem check_queue_empty (env : Env) (s : State) (h : s.tx_queue_rptr = s.tx_queue_wptr) :
    archie_check_queue env s = s := by
  simp [archie_check_queue, h]

theorem check_queue_wf (env : Env) (s : State) (hwf : QueueWF s) :
    QueueWF (archie_check_queue env s) := by
  obtain ⟨hr, hw⟩ := hwf
  unfold archie_check_queue
  split
  · exact ⟨hr, hw⟩
  · exact ⟨QUEUE_NEXT_lt _, hw⟩

theorem check_queue_frames (env : Env) (s : State) (hwf : QueueWF s)
    (h : s.tx_queue_rptr ≠ s.tx_queue_wptr) :
    queue_frames s = s.tx_queue s.tx_queue_rptr :: queue_frames (archie_check_queue env s) := by
  obtain ⟨hr, hw⟩ := hwf
  have hc : queue_count s = queue_count (archie_check_queue env s) + 1 := by
    simp only [archie_check_queue, if_neg h, archie_kbd_tx]
    simp only [QUEUE_NEXT_eq, queue_count, QUEUE_LEN] at *
    omega
  unfold queue_frames
  rw [hc, List.range_succ_eq_map, List.map_cons, List.map_map]
  simp only [archie_check_queue, if_neg h, archie_kbd_tx, QUEUE_NEXT_eq, QUEUE_LEN] at *
  congr 1
  · rw [Nat.add_zero, Nat.mod_eq_of_lt hr]
  · apply List.map_congr_left
    intro k _
    have : (s.tx_queue_rptr + (k + 1)) % 8 = ((s.tx_queue_rptr + 1) % 8 + k) % 8 := by omega
    simp [this]

theorem check_queue_sent (env : Env) (s : State) (h : s.tx_queue_rptr ≠ s.tx_queue_wptr) :
    (archie_check_queue env s).tx_log = s.tx_log ++
      [{ prev_state := s.kbd_state, state := (s.tx_queue s.tx_queue_rptr).1,
         byte := (s.tx_queue s.tx_queue_rptr).2 }] ∧
    (archie_check_queue env s).kbd_state = (s.tx_queue s.tx_queue_rptr).1 := by
  simp [archie_check_queue, h, archie_kbd_tx]

theorem sent_frames_enqueue (s : State) (state byte : Nat) :
    sent_frames (archie_kbd_enqueue s state byte) = sent_frames s := by
  unfold archie_kbd_enqueue sent_frames
  split <;> rfl

theorem queue_run_frames (ops : List QueueOp) (s : State) (hwf : QueueWF s) :
    sent_frames s ++ (queue_frames s ++ accepted_frames s ops) =
      sent_frames (queue_run s ops) ++ queue_frames (queue_run s ops) := by
  induction ops generalizing s with
  | nil => simp [accepted_frames, queue_run]
  | cons op rest ih =>
    cases op with
    | enqueue state byte =>
      have ih := ih (archie_kbd_enqueue s state byte) (enqueue_wf s state byte hwf)
      simp only [queue_run, List.foldl_cons, queue_step, accepted_frames] at ih ⊢
      rw [← ih, sent_frames_enqueue]
      by_cases h : QUEUE_NEXT s.tx_queue_wptr = s.tx_queue_rptr
      · rw [if_pos h, enqueue_full s state byte h]
        simp [queue_frames, queue_count]
      · rw [if_neg h, enqueue_frames s state byte hwf h]
        simp
    | check env =>
      have ih := ih (archie_check_queue env s) (check_queue_wf env s hwf)
      simp only [queue_run, List.foldl_cons, queue_step, accepted_frames] at ih ⊢
      rw [← ih]
      by_cases h : s.tx_queue_rptr = s.tx_queue_wptr
      · rw [check_queue_empty env s h]
      · rw [check_queue_frames env s hwf h]
        simp [sent_frames, (check_queue_sent env s h).1, TxEvent.frame]

theorem queue_run_sent (ops : List QueueOp) (s : State) :
    sent_frames s <+: sent_frames (queue_run s ops) := by
  induction ops generalizing s with
  | nil => exact List.prefix_refl _
  | cons op rest ih =>
    cases op with
    | enqueue state byte =>
      have ih := ih (archie_kbd_enqueue s state byte)
      rw [sent_frames_enqueue] at ih
      exact ih
    | check env =>
      refine List.IsPrefix.trans ?_ (ih (archie_check_queue env s))
      by_cases h : s.tx_queue_rptr = s.tx_queue_wptr
      · rw [check_queue_empty env s h]
      · simp [sent_frames, (check_queue_sent env s h).1]

/-- C2: an accepted `archie_kbd_enqueue` appends its frame at the tail of the queue;
`archie_check_queue` on a non-empty queue removes the head frame, transmits its byte
and moves the link to its target state; and over any sequence of the two operations
from an empty queue the frames transmitted are a prefix of the frames accepted, the
rest being the queue content. -/
theorem queue_fifo (s : State) (hwf : QueueWF s) :
    (∀ state byte, queue_count s < 7 →
      queue_frames (archie_kbd_enqueue s state byte) = queue_frames s ++ [(state, byte)] ∧
      sent_frames (archie_kbd_enqueue s state byte) = sent_frames s) ∧
    (∀ env, queue_count s ≠ 0 →
      ∃ f rest, queue_frames s = f :: rest ∧
        queue_frames (archie_check_queue env s) = rest ∧
        sent_frames (archie_check_queue env s) = sent_frames s ++ [f] ∧
        sent_bytes (archie_check_queue env s) = sent_bytes s ++ [f.2] ∧
        (archie_check_queue env s).kbd_state = f.1) ∧
    (∀ ops, queue_count s = 0 →
      ∃ deq, sent_frames (queue_run s ops) = sent_frames s ++ deq ∧
        accepted_frames s ops = deq ++ queue_frames (queue_run s ops) ∧
        deq <+: accepted_frames s ops) := by
  refine ⟨?_, ?_, ?_⟩
  · intro state byte h
    have hn : QUEUE_NEXT s.tx_queue_wptr ≠ s.tx_queue_rptr := by
      intro hf; have := (queue_full_iff s hwf).mp hf; omega
    exact ⟨enqueue_frames s state byte hwf hn, sent_frames_enqueue s state byte⟩
  · intro env h
    have hn : s.tx_queue_rptr ≠ s.tx_queue_wptr := fun hf => h ((queue_empty_iff s hwf).mp hf)
    refine ⟨s.tx_queue s.tx_queue_rptr, _, check_queue_frames env s hwf hn, rfl, ?_, ?_,
      (check_queue_sent env s hn).2⟩
    · simp [sent_frames, (check_queue_sent env s hn).1, TxEvent.frame]
    · simp [sent_bytes, (check_queue_sent env s hn).1]
  · intro ops h
    have key := queue_run_frames ops s hwf
    have hq : queue_frames s = [] := by simp [queue_frames, h]
    rw [hq, List.nil_append] at key
    obtain ⟨deq, hdeq⟩ := queue_run_sent ops s
    rw [← hdeq, List.append_assoc] at key
    have hacc := List.append_cancel_left key
    exact ⟨deq, hdeq.symm, hacc, ⟨_, hacc.symm⟩⟩

/-! ## Invariants of executions -/

theorem archie_kbd_inv {P : State → Prop} (hP : StepInvariant P) (env : Env) (s : State)
    (code : Nat) (h : P s) : P (archie_kbd env s code) := by
  unfold archie_kbd
  split
  · exact h
  · split
    · exact h
    · exact hP.send _ _ _ _ (hP.send _ _ _ _ h)

theorem mouse_button_inv {P : State → Prop} (hP : StepInvariant P) (env : Env) (b : Nat)
    (st : State) (k : Nat) (h : P st) : P (mouse_button env b st k) := by
  unfold mouse_button
  dsimp only
  split
  · exact hP.send _ _ _ _ (hP.send _ _ _ _ h)
  · exact h

theorem mouse_flush_inv {P : State → Prop} (hP : StepInvariant P) (env : Env) (s : State)
    (h : P s) : P (mouse_flush env s) := by
  unfold mouse_flush
  split
  · split
    · exact hP.flushed _ (hP.send _ _ _ _ (hP.send _ _ _ _ h))
    · exact h
  · exact h

theorem mouse_buttons_inv {P : State → Prop} (hP : StepInvariant P) (env : Env) (s : State)
    (b : Nat) (h : P s) : P (mouse_buttons env s b) := by
  unfold mouse_buttons
  split
  · have h3 : P ([0, 1, 2].foldl (mouse_button env b) s) := by
      simp only [List.foldl]
      exact mouse_button_inv hP _ _ _ _ (mouse_button_inv hP _ _ _ _
        (mouse_button_inv hP _ _ _ _ h))
    exact hP.control _ _ _ _ b h3
  · exact h

theorem archie_mouse_inv {P : State → Prop} (hP : StepInvariant P) (env : Env) (s : State)
    (b : Nat) (x y : Int) (h : P s) : P (archie_mouse env s b x y) := by
  have h1 := hP.accumulate s x y h
  unfold archie_mouse
  dsimp only
  split
  · exact h1
  · exact mouse_buttons_inv hP _ _ _ (mouse_flush_inv hP _ _ h1)

theorem handle_rx_inv {P : State → Prop} (hP : StepInvariant P) (env : Env) (s : State)
    (data : Nat) (h : P s) : P (handle_rx env s data) := by
  unfold handle_rx
  split_ifs
  · exact hP.control _ _ (env.GetTimer 20) _ _ (hP.send _ _ _ _ (hP.reset _ h))
  · exact hP.control _ _ (env.GetTimer 20) _ _ (hP.send _ _ _ _ h)
  · exact hP.control s STATE_HRST _ _ _ h
  · exact hP.control _ _ (env.GetTimer 20) _ _ (hP.send _ _ _ _ h)
  · exact hP.control s STATE_HRST _ _ _ h
  · exact hP.send _ _ _ _ h
  · exact hP.control s STATE_HRST _ _ _ h
  · exact hP.check _ _ h
  · exact hP.check env { s with flags := mode_ack_flags s.flags data }
      (hP.control s _ _ (mode_ack_flags s.flags data) _ h)
  · exact h

theorem ack_timeout_check_inv {P : State → Prop} (hP : StepInvariant P) (env : Env) (s : State)
    (h : P s) : P (ack_timeout_check env s) := by
  unfold ack_timeout_check
  split_ifs
  · exact hP.control s STATE_IDLE _ _ _ h
  · exact h
  · exact h

theorem reset_timeout_check_inv {P : State → Prop} (hP : StepInvariant P) (env : Env)
    (s : State) (h : P s) : P (reset_timeout_check env s) := by
  unfold reset_timeout_check
  split_ifs
  · exact hP.control _ _ (env.GetTimer 20) _ _ (hP.send _ _ _ _ h)
  · exact h
  · exact h

theorem archie_handle_kbd_inv {P : State → Prop} (hP : StepInvariant P) (env : Env) (s : State)
    (h : P s) : P (archie_handle_kbd env s) := by
  have h2 := reset_timeout_check_inv hP env _ (ack_timeout_check_inv hP env s h)
  unfold archie_handle_kbd
  cases env.rx with
  | none => exact h2
  | some data => exact handle_rx_inv hP env _ data h2

theorem step_inv {P : State → Prop} (hP : StepInvariant P) (s : State) (e : Event)
    (h : P s) : P (step s e) := by
  cases e with
  | kbd env code => exact archie_kbd_inv hP env s code h
  | mouse env b x y => exact archie_mouse_inv hP env s b x y h
  | poll env => exact archie_handle_kbd_inv hP env s h

theorem run_inv {P : State → Prop} (hP : StepInvariant P) (evs : List Event) (s : State)
    (h : P s) : P (run s evs) := by
  induction evs generalizing s with
  | nil => exact h
  | cons e rest ih => exact ih (step s e) (step_inv hP s e h)

theorem send_direct (env : Env) (s : State) (state byte : Nat)
    (h : s.kbd_state ≠ STATE_WAIT4ACK1 ∧ s.kbd_state ≠ STATE_WAIT4ACK2) :
    archie_kbd_send env s state byte =
      archie_kbd_tx env
        { s with
          send_log := s.send_log ++ [(state, byte)]
          overtakes :=
            if s.tx_queue_rptr = s.tx_queue_wptr then s.overtakes else s.overtakes + 1 }
        state byte := by
  unfold archie_kbd_send
  exact if_pos h

theorem send_queued (env : Env) (s : State) (state byte : Nat)
    (h : s.kbd_state = STATE_WAIT4ACK1 ∨ s.kbd_state = STATE_WAIT4ACK2) :
    archie_kbd_send env s state byte =
      archie_kbd_enqueue { s with send_log := s.send_log ++ [(state, byte)] } state byte := by
  unfold archie_kbd_send
  apply if_neg
  dsimp only
  omega

theorem send_wf (env : Env) (s : State) (state byte : Nat) (hwf : QueueWF s) :
    QueueWF (archie_kbd_send env s state byte) := by
  by_cases h : s.kbd_state ≠ STATE_WAIT4ACK1 ∧ s.kbd_state ≠ STATE_WAIT4ACK2
  · rw [send_direct env s state byte h]
    exact hwf
  · rw [send_queued env s state byte (by omega)]
    exact enqueue_wf _ state byte hwf

theorem queueWF_invariant : StepInvariant QueueWF where
  control := fun _ _ _ _ _ h => h
  accumulate := fun _ _ _ h => h
  flushed := fun _ h => h
  send := fun env s state byte h => send_wf env s state byte h
  check := fun env _ h => check_queue_wf env _ h
  reset := fun _ _ => ⟨Nat.succ_pos 7, Nat.succ_pos 7⟩

/-- Both queue indices stay below `QUEUE_LEN` in every execution from program start. -/
theorem run_wf (evs : List Event) : QueueWF (run init_state evs) :=
  run_inv queueWF_invariant evs init_state ⟨Nat.succ_pos 7, Nat.succ_pos 7⟩

/-- Every transmission appended to `log0` was made while `kbd_state` was neither
`STATE_WAIT4ACK1` nor `STATE_WAIT4ACK2`. -/
theorem tx_outside_wait_invariant (log0 : List TxEvent) :
    StepInvariant fun s => ∃ new, s.tx_log = log0 ++ new ∧
      ∀ e ∈ new, e.prev_state ≠ STATE_WAIT4ACK1 ∧ e.prev_state ≠ STATE_WAIT4ACK2 where
  control := fun _ _ _ _ _ h => h
  accumulate := fun _ _ _ h => h
  flushed := fun _ h => h
  reset := fun _ h => h
  send := by
    rintro env s state byte ⟨new, hlog, hnew⟩
    by_cases h : s.kbd_state ≠ STATE_WAIT4ACK1 ∧ s.kbd_state ≠ STATE_WAIT4ACK2
    · rw [send_direct env s state byte h]
      refine ⟨new ++ [{ prev_state := s.kbd_state, state := state, byte := byte }], ?_, ?_⟩
      · simp [archie_kbd_tx, hlog]
      · intro e he
        rcases List.mem_append.mp he with he | he
        · exact hnew e he
        · rw [List.mem_singleton] at he
          subst he
          exact h
    · rw [send_queued env s state byte (by omega)]
      refine ⟨new, ?_, hnew⟩
      unfold archie_kbd_enqueue
      split <;> exact hlog
  check := by
    rintro env s ⟨new, hlog, hnew⟩
    by_cases h : s.tx_queue_rptr = s.tx_queue_wptr
    · rw [check_queue_empty env { s with kbd_state := STATE_IDLE } h]
      exact ⟨new, hlog, hnew⟩
    · refine ⟨new ++ [⟨STATE_IDLE, (s.tx_queue s.tx_queue_rptr).1,
        (s.tx_queue s.tx_queue_rptr).2⟩], ?_, ?_⟩
      · rw [(check_queue_sent env { s with kbd_state := STATE_IDLE } h).1]
        simp [hlog]
      · intro e he
        rcases List.mem_append.mp he with he | he
        · exact hnew e he
        · rw [List.mem_singleton] at he
          subst he
          constructor <;> simp

/-! ## C1 and C2: sample inputs -/

/-- C1 at sample inputs: a rejected enqueue on `full_queue_state` and an accepted one on
`init_state`. -/
theorem enqueue_capacity_witness :
    QueueWF full_queue_state ∧ queue_count full_queue_state = 7 ∧
    archie_kbd_enqueue full_queue_state STATE_WAIT4ACK1 0xc3 =
      { full_queue_state with overflows := full_queue_state.overflows + 1 } ∧
    queue_count (archie_kbd_enqueue full_queue_state STATE_WAIT4ACK1 0xc3) = 7 :=
  ⟨by decide, by decide,
    (enqueue_capacity full_queue_state STATE_WAIT4ACK1 0xc3 (by decide)).1 (by decide),
    (enqueue_capacity full_queue_state STATE_WAIT4ACK1 0xc3 (by decide)).2.2.2 (by decide)⟩

/-- C2 at sample inputs: dequeueing from `one_frame_state`. -/
theorem queue_fifo_witness :
    QueueWF one_frame_state ∧ queue_count one_frame_state ≠ 0 ∧
    ∃ f rest, queue_frames one_frame_state = f :: rest ∧
      queue_frames (archie_check_queue quiet_env one_frame_state) = rest ∧
      sent_frames (archie_check_queue quiet_env one_frame_state) =
        sent_frames one_frame_state ++ [f] ∧
      sent_bytes (archie_check_queue quiet_env one_frame_state) =
        sent_bytes one_frame_state ++ [f.2] ∧
      (archie_check_queue quiet_env one_frame_state).kbd_state = f.1 :=
  ⟨by decide, by decide, (queue_fifo one_frame_state (by decide)).2.1 quiet_env (by decide)⟩

/-! ## C4: flow control -/

theorem send_queued_effect (env : Env) (s : State) (state byte : Nat) (hwf : QueueWF s)
    (h : s.kbd_state = STATE_WAIT4ACK1 ∨ s.kbd_state = STATE_WAIT4ACK2) :
    (archie_kbd_send env s state byte).tx_log = s.tx_log ∧
    (archie_kbd_send env s state byte).kbd_state = s.kbd_state ∧
    (archie_kbd_send env s state byte).ack_timeout = s.ack_timeout ∧
    (archie_kbd_send env s state byte).send_log = s.send_log ++ [(state, byte)] ∧
    (queue_count s < 7 →
      queue_frames (archie_kbd_send env s state byte) = queue_frames s ++ [(state, byte)] ∧
      (archie_kbd_send env s state byte).overflows = s.overflows) ∧
    (queue_count s = 7 →
      queue_frames (archie_kbd_send env s state byte) = queue_frames s ∧
      (archie_kbd_send env s state byte).overflows = s.overflows + 1) := by
  rw [send_queued env s state byte h]
  have hwf' : QueueWF { s with send_log := s.send_log ++ [(state, byte)] } := hwf
  by_cases hf : QUEUE_NEXT s.tx_queue_wptr = s.tx_queue_rptr
  · have h7 := (queue_full_iff s hwf).mp hf
    rw [enqueue_full { s with send_log := s.send_log ++ [(state, byte)] } state byte hf]
    refine ⟨rfl, rfl, rfl, rfl, ?_, ?_⟩
    · intro hlt; omega
    · intro _; exact ⟨rfl, rfl⟩
  · have h7 : queue_count s ≠ 7 := fun h7 => hf ((queue_full_iff s hwf).mpr h7)
    refine ⟨?_, ?_, ?_, ?_, ?_, ?_⟩
    · simp [archie_kbd_enqueue, hf]
    · simp [archie_kbd_enqueue, hf]
    · simp [archie_kbd_enqueue, hf]
    · simp [archie_kbd_enqueue, hf]
    · intro _
      refine ⟨enqueue_frames _ state byte hwf' hf, ?_⟩
      simp [archie_kbd_enqueue, hf]
    · intro h; exact absurd h h7

/-- C4: in every execution, from any state, no transmission is made while `kbd_state`
is `STATE_WAIT4ACK1` or `STATE_WAIT4ACK2`; and `archie_kbd_send` called in one of these
two states transmits nothing, leaves `kbd_state` and `ack_timeout` unchanged and
appends the frame to the queue, or drops it when the queue holds 7 frames. -/
theorem flow_control :
    (∀ (s0 : State) (evs : List Event), ∃ new,
      (run s0 evs).tx_log = s0.tx_log ++ new ∧
      ∀ e ∈ new, e.prev_state ≠ STATE_WAIT4ACK1 ∧ e.prev_state ≠ STATE_WAIT4ACK2) ∧
    (∀ (env : Env) (s : State) (state byte : Nat), QueueWF s →
      s.kbd_state = STATE_WAIT4ACK1 ∨ s.kbd_state = STATE_WAIT4ACK2 →
      (archie_kbd_send env s state byte).tx_log = s.tx_log ∧
      (archie_kbd_send env s state byte).kbd_state = s.kbd_state ∧
      (archie_kbd_send env s state byte).ack_timeout = s.ack_timeout ∧
      (queue_count s < 7 →
        queue_frames (archie_kbd_send env s state byte) = queue_frames s ++ [(state, byte)]) ∧
      (queue_count s = 7 →
        queue_frames (archie_kbd_send env s state byte) = queue_frames s ∧
        (archie_kbd_send env s state byte).overflows = s.overflows + 1)) := by
  constructor
  · intro s0 evs
    exact run_inv (tx_outside_wait_invariant s0.tx_log) evs s0 ⟨[], by simp, by simp⟩
  · intro env s state byte hwf h
    obtain ⟨h1, h2, h3, _, h5, h6⟩ := send_queued_effect env s state byte hwf h
    exact ⟨h1, h2, h3, fun hlt => (h5 hlt).1, h6⟩

/-- C4 at sample inputs: a frame sent while `one_frame_state` waits for an ack is queued
behind the waiting frame. -/
theorem flow_control_witness :
    QueueWF one_frame_state ∧
    (one_frame_state.kbd_state = STATE_WAIT4ACK1 ∨
      one_frame_state.kbd_state = STATE_WAIT4ACK2) ∧
    queue_count one_frame_state < 7 ∧
    (archie_kbd_send quiet_env one_frame_state STATE_WAIT4ACK1 0xc3).tx_log =
      one_frame_state.tx_log ∧
    queue_frames (archie_kbd_send quiet_env one_frame_state STATE_WAIT4ACK1 0xc3) =
      queue_frames one_frame_state ++ [(STATE_WAIT4ACK1, 0xc3)] :=
  ⟨by decide, by decide, by decide,
    (flow_control.2 quiet_env one_frame_state STATE_WAIT4ACK1 0xc3 (by decide) (by decide)).1,
    (flow_control.2 quiet_env one_frame_state STATE_WAIT4ACK1 0xc3 (by decide)
      (by decide)).2.2.2.1 (by decide)⟩

/-! ## C5: reset -/

/-- C5: after `archie_kbd_reset`, from any state, the link state is `STATE_HRST`, the
queue is empty, both mode flags are clear and the mouse accumulator is `(0, 0)`. -/
theorem reset_postcondition (s : State) :
    (archie_kbd_reset s).kbd_state = STATE_HRST ∧
    (archie_kbd_reset s).tx_queue_rptr = (archie_kbd_reset s).tx_queue_wptr ∧
    queue_count (archie_kbd_reset s) = 0 ∧
    queue_frames (archie_kbd_reset s) = [] ∧
    (archie_kbd_reset s).flags &&& FLAG_SCAN_ENABLED = 0 ∧
    (archie_kbd_reset s).flags &&& FLAG_MOUSE_ENABLED = 0 ∧
    (archie_kbd_reset s).mouse_x = 0 ∧ (archie_kbd_reset s).mouse_y = 0 := by
  simp [archie_kbd_reset, queue_count, queue_frames]

/-! ## C10: ignored key events -/

/-- C10: with key scanning disabled, or inside the reset handshake, `archie_kbd` returns
the state unchanged: nothing is transmitted, handed over or queued, and `kbd_state`,
`ack_timeout`, `flags`, the queue and the accumulator keep their values. -/
theorem kbd_ignored (env : Env) (s : State) (code : Nat)
    (h : s.flags &&& FLAG_SCAN_ENABLED = 0 ∨ s.kbd_state = STATE_HRST ∨
      s.kbd_state = STATE_RAK1 ∨ s.kbd_state = STATE_RAK2) :
    archie_kbd env s code = s := by
  unfold archie_kbd
  by_cases h1 : s.kbd_state ≤ STATE_RAK2
  · rw [if_pos h1]
  · rw [if_neg h1]
    have h2 : s.flags &&& FLAG_SCAN_ENABLED = 0 := by
      rcases h with h | h | h | h
      · exact h
      all_goals exact absurd (by simp [h]) h1
    rw [if_pos h2]

/-- C10 at the sample input of the specification: key `0x012` pressed while key scanning
is disabled. -/
theorem kbd_ignored_witness :
    idle_mouse_state.flags &&& FLAG_SCAN_ENABLED = 0 ∧
    archie_kbd quiet_env idle_mouse_state 0x012 = idle_mouse_state :=
  ⟨by decide, kbd_ignored quiet_env idle_mouse_state 0x012 (Or.inl (by decide))⟩

/-! ## C6: the accumulator stays in range -/

theorem mouse_limit_range (v : Int) : -64 ≤ mouse_limit v ∧ mouse_limit v ≤ 63 := by
  unfold mouse_limit
  dsimp only
  split_ifs <;> omega

theorem mouse_limit_of_range (v : Int) (h1 : -64 ≤ v) (h2 : v ≤ 63) : mouse_limit v = v := by
  unfold mouse_limit
  dsimp only
  rw [if_neg (by omega), if_neg (by omega)]

theorem toShort_of_range (z : Int) (h1 : -32768 ≤ z) (h2 : z ≤ 32767) : toShort z = z := by
  unfold toShort
  omega

theorem enqueue_mouse (s : State) (state byte : Nat) :
    (archie_kbd_enqueue s state byte).mouse_x = s.mouse_x ∧
    (archie_kbd_enqueue s state byte).mouse_y = s.mouse_y := by
  unfold archie_kbd_enqueue
  split <;> exact ⟨rfl, rfl⟩

theorem send_mouse (env : Env) (s : State) (state byte : Nat) :
    (archie_kbd_send env s state byte).mouse_x = s.mouse_x ∧
    (archie_kbd_send env s state byte).mouse_y = s.mouse_y := by
  by_cases h : s.kbd_state ≠ STATE_WAIT4ACK1 ∧ s.kbd_state ≠ STATE_WAIT4ACK2
  · rw [send_direct env s state byte h]
    exact ⟨rfl, rfl⟩
  · rw [send_queued env s state byte (by omega)]
    exact enqueue_mouse _ state byte

theorem check_queue_mouse (env : Env) (s : State) :
    (archie_check_queue env s).mouse_x = s.mouse_x ∧
    (archie_check_queue env s).mouse_y = s.mouse_y := by
  unfold archie_check_queue
  split <;> exact ⟨rfl, rfl⟩

theorem mouse_range_invariant :
    StepInvariant fun s =>
      -64 ≤ s.mouse_x ∧ s.mouse_x ≤ 63 ∧ -64 ≤ s.mouse_y ∧ s.mouse_y ≤ 63 where
  control := fun _ _ _ _ _ h => h
  accumulate := fun s x y _ =>
    ⟨(mouse_limit_range _).1, (mouse_limit_range _).2,
      (mouse_limit_range _).1, (mouse_limit_range _).2⟩
  flushed := fun _ _ => by simp
  send := fun env s state byte h => by
    rw [(send_mouse env s state byte).1, (send_mouse env s state byte).2]
    exact h
  check := fun env s h => by
    rw [(check_queue_mouse env { s with kbd_state := STATE_IDLE }).1,
      (check_queue_mouse env { s with kbd_state := STATE_IDLE }).2]
    exact h
  reset := fun _ _ => by simp [archie_kbd_reset]

/-- C6: after `archie_kbd_reset` and any sequence of `archie_kbd`, `archie_mouse` and
`archie_handle_kbd` calls, whatever the deltas, `mouse_x` and `mouse_y` lie in
`[-64, 63]`; and for signed 8-bit deltas the next accumulator update does not leave the
range of a 16-bit `short`. -/
theorem mouse_clamp (s0 : State) (evs : List Event) :
    (-64 ≤ (run (archie_kbd_reset s0) evs).mouse_x ∧
      (run (archie_kbd_reset s0) evs).mouse_x ≤ 63 ∧
      -64 ≤ (run (archie_kbd_reset s0) evs).mouse_y ∧
      (run (archie_kbd_reset s0) evs).mouse_y ≤ 63) ∧
    ∀ x y : Int, -128 ≤ x → x ≤ 127 → -128 ≤ y → y ≤ 127 →
      (-32768 ≤ (run (archie_kbd_reset s0) evs).mouse_x + x ∧
        (run (archie_kbd_reset s0) evs).mouse_x + x ≤ 32767 ∧
        -32768 ≤ (run (archie_kbd_reset s0) evs).mouse_y - y ∧
        (run (archie_kbd_reset s0) evs).mouse_y - y ≤ 32767) ∧
      toShort ((run (archie_kbd_reset s0) evs).mouse_x + x) =
        (run (archie_kbd_reset s0) evs).mouse_x + x ∧
      toShort ((run (archie_kbd_reset s0) evs).mouse_y - y) =
        (run (archie_kbd_reset s0) evs).mouse_y - y := by
  have hinv := run_inv mouse_range_invariant evs (archie_kbd_reset s0)
    (by simp [archie_kbd_reset])
  refine ⟨hinv, ?_⟩
  intro x y hx1 hx2 hy1 hy2
  obtain ⟨h1, h2, h3, h4⟩ := hinv
  refine ⟨⟨by omega, by omega, by omega, by omega⟩, ?_, ?_⟩
  · exact toShort_of_range _ (by omega) (by omega)
  · exact toShort_of_range _ (by omega) (by omega)

/-- C6 at a sample input: two extreme pointer events on a busy link, then one more
update. -/
theorem mouse_clamp_witness :
    toShort ((run (archie_kbd_reset busy_mouse_state)
        [.mouse quiet_env 0 127 (-128), .mouse quiet_env 0 127 (-128)]).mouse_x + 127) =
      (run (archie_kbd_reset busy_mouse_state)
        [.mouse quiet_env 0 127 (-128), .mouse quiet_env 0 127 (-128)]).mouse_x + 127 :=
  ((mouse_clamp busy_mouse_state
    [.mouse quiet_env 0 127 (-128), .mouse quiet_env 0 127 (-128)]).2 127 (-128)
    (by decide) (by decide) (by decide) (by decide)).2.1

/-! ## C3: transmit order -/

theorem enqueue_logs (s : State) (state byte : Nat) :
    (archie_kbd_enqueue s state byte).send_log = s.send_log ∧
    (archie_kbd_enqueue s state byte).overtakes = s.overtakes ∧
    (archie_kbd_enqueue s state byte).tx_log = s.tx_log := by
  unfold archie_kbd_enqueue
  split <;> exact ⟨rfl, rfl, rfl⟩

theorem check_queue_logs (env : Env) (s : State) :
    (archie_check_queue env s).send_log = s.send_log ∧
    (archie_check_queue env s).overtakes = s.overtakes := by
  unfold archie_check_queue
  split <;> exact ⟨rfl, rfl⟩

theorem queue_frames_of_empty (s : State) (h : s.tx_queue_rptr = s.tx_queue_wptr) :
    queue_frames s = [] := by
  have : queue_count s = 0 := by
    simp only [queue_count, QUEUE_LEN, h]
    omega
  simp [queue_frames, this]

/-- As long as `archie_kbd_send` has never transmitted past a non-empty queue, the
frames transmitted followed by the frames waiting are, in this order, among the frames
handed to `archie_kbd_send`. -/
theorem transmit_order_invariant :
    StepInvariant fun s => QueueWF s ∧
      (s.overtakes = 0 → (sent_frames s ++ queue_frames s).Sublist s.send_log) where
  control := fun _ _ _ _ _ h => h
  accumulate := fun _ _ _ h => h
  flushed := fun _ h => h
  reset := by
    rintro s ⟨_, hs⟩
    refine ⟨⟨Nat.succ_pos 7, Nat.succ_pos 7⟩, fun ho => ?_⟩
    have hq : queue_frames (archie_kbd_reset s) = [] := queue_frames_of_empty _ rfl
    rw [hq, List.append_nil]
    exact (List.sublist_append_left _ _).trans (hs ho)
  send := by
    rintro env s state byte ⟨hwf, hs⟩
    refine ⟨send_wf env s state byte hwf, ?_⟩
    by_cases h : s.kbd_state ≠ STATE_WAIT4ACK1 ∧ s.kbd_state ≠ STATE_WAIT4ACK2
    · rw [send_direct env s state byte h]
      intro ho
      have ho' : (if s.tx_queue_rptr = s.tx_queue_wptr then s.overtakes
          else s.overtakes + 1) = 0 := ho
      by_cases he : s.tx_queue_rptr = s.tx_queue_wptr
      · rw [if_pos he] at ho'
        have hq := queue_frames_of_empty s he
        have hs' := hs ho'
        rw [hq, List.append_nil] at hs'
        have hq' : queue_frames (archie_kbd_tx env
            { s with
              send_log := s.send_log ++ [(state, byte)]
              overtakes :=
                if s.tx_queue_rptr = s.tx_queue_wptr then s.overtakes else s.overtakes + 1 }
            state byte) = [] := queue_frames_of_empty _ he
        rw [hq', List.append_nil]
        have : sent_frames (archie_kbd_tx env
            { s with
              send_log := s.send_log ++ [(state, byte)]
              overtakes :=
                if s.tx_queue_rptr = s.tx_queue_wptr then s.overtakes else s.overtakes + 1 }
            state byte) = sent_frames s ++ [(state, byte)] := by
          simp [sent_frames, archie_kbd_tx, TxEvent.frame]
        rw [this]
        exact List.Sublist.append hs' (List.Sublist.refl _)
      · rw [if_neg he] at ho'
        omega
    · have hk : s.kbd_state = STATE_WAIT4ACK1 ∨ s.kbd_state = STATE_WAIT4ACK2 := by omega
      obtain ⟨h1, _, _, h4, h5, h6⟩ := send_queued_effect env s state byte hwf hk
      have hov : (archie_kbd_send env s state byte).overtakes = s.overtakes := by
        rw [send_queued env s state byte hk]
        exact (enqueue_logs _ state byte).2.1
      intro ho
      rw [hov] at ho
      have hs' := hs ho
      have hsent : sent_frames (archie_kbd_send env s state byte) = sent_frames s := by
        simp [sent_frames, h1]
      rw [hsent, h4]
      rcases Nat.lt_or_ge (queue_count s) 7 with hlt | hge
      · rw [(h5 hlt).1, ← List.append_assoc]
        exact List.Sublist.append hs' (List.Sublist.refl _)
      · have h7 : queue_count s = 7 := Nat.le_antisymm (queue_count_le s) hge
        rw [(h6 h7).1]
        exact hs'.trans (List.sublist_append_left _ _)
  check := by
    rintro env s ⟨hwf, hs⟩
    have hwf1 : QueueWF { s with kbd_state := STATE_IDLE } := hwf
    refine ⟨check_queue_wf env _ hwf1, ?_⟩
    by_cases he : s.tx_queue_rptr = s.tx_queue_wptr
    · rw [check_queue_empty env { s with kbd_state := STATE_IDLE } he]
      exact hs
    · rw [(check_queue_logs env { s with kbd_state := STATE_IDLE }).1,
        (check_queue_logs env { s with kbd_state := STATE_IDLE }).2]
      intro ho
      have hs' := hs ho
      have hf := check_queue_frames env { s with kbd_state := STATE_IDLE } hwf1 he
      have hq : queue_frames s = queue_frames { s with kbd_state := STATE_IDLE } := rfl
      rw [hq, hf] at hs'
      have hsent : sent_frames (archie_check_queue env { s with kbd_state := STATE_IDLE }) =
          sent_frames s ++ [s.tx_queue s.tx_queue_rptr] := by
        simp [sent_frames, (check_queue_sent env { s with kbd_state := STATE_IDLE } he).1,
          TxEvent.frame]
      rw [hsent, List.append_assoc]
      exact hs'

/-- C3, refuted: in `overtake_trace` the frame with byte `0xc5`, handed over ninth, is
transmitted directly while the frames `0xc3` and `0xc4`, handed over before it, are
still queued, and `0xc3` goes out after it. -/
theorem transmit_order_counterexample :
    sent_bytes (run init_state overtake_trace) =
      [0xff, 0xfe, 0xfd, 0xc1, 0xc2, 0x81, 0xc5, 0xc3] ∧
    (run init_state overtake_trace).send_log.map Prod.snd =
      [0xff, 0xfe, 0xfd, 0xc1, 0xc2, 0x81, 0xc3, 0xc4, 0xc5, 0xc6] ∧
    ¬ (sent_frames (run init_state overtake_trace)).Sublist
        (run init_state overtake_trace).send_log := by
  decide

/-- C3, amended: in every execution from program start in which `archie_kbd_send` never
transmitted directly while frames were queued, the frames transmitted followed by the
frames still waiting appear in this order among the frames handed to
`archie_kbd_send`. -/
theorem transmit_order_amended (evs : List Event)
    (h : (run init_state evs).overtakes = 0) :
    (sent_frames (run init_state evs) ++ queue_frames (run init_state evs)).Sublist
      (run init_state evs).send_log ∧
    (sent_frames (run init_state evs)).Sublist (run init_state evs).send_log := by
  have hinv := run_inv transmit_order_invariant evs init_state
    ⟨⟨Nat.succ_pos 7, Nat.succ_pos 7⟩, fun _ => by simp [sent_frames, queue_frames, init_state,
      queue_count]⟩
  exact ⟨hinv.2 h, (List.sublist_append_left _ _).trans (hinv.2 h)⟩

/-- C3, amended, at a sample input: the run `orderly_trace`. -/
theorem transmit_order_amended_witness :
    (run init_state orderly_trace).overtakes = 0 ∧
    (sent_frames (run init_state orderly_trace)).Sublist
      (run init_state orderly_trace).send_log :=
  ⟨by decide, (transmit_order_amended orderly_trace (by decide)).2⟩

/-! ## C8: flushing from the idle state -/

theorem mouse_accumulate_fields (s : State) (x y : Int) :
    (mouse_accumulate s x y).mouse_x = mouse_limit (toShort (s.mouse_x + x)) ∧
    (mouse_accumulate s x y).mouse_y = mouse_limit (toShort (s.mouse_y - y)) ∧
    (mouse_accumulate s x y).kbd_state = s.kbd_state ∧
    (mouse_accumulate s x y).flags = s.flags ∧
    (mouse_accumulate s x y).buts = s.buts ∧
    (mouse_accumulate s x y).tx_log = s.tx_log ∧
    (mouse_accumulate s x y).send_log = s.send_log ∧
    (mouse_accumulate s x y).tx_queue = s.tx_queue ∧
    (mouse_accumulate s x y).tx_queue_rptr = s.tx_queue_rptr ∧
    (mouse_accumulate s x y).tx_queue_wptr = s.tx_queue_wptr :=
  ⟨rfl, rfl, rfl, rfl, rfl, rfl, rfl, rfl, rfl, rfl⟩

theorem mouse_button_unchanged (env : Env) (b : Nat) (st : State) (k : Nat)
    (h : b &&& (1 <<< k) = st.buts &&& (1 <<< k)) : mouse_button env b st k = st := by
  unfold mouse_button
  dsimp only
  rw [if_neg (not_not.mpr h)]

theorem mouse_buttons_quiet (env : Env) (s : State) (b : Nat)
    (h : s.flags &&& FLAG_SCAN_ENABLED = 0 ∨
      ∀ k < 3, b &&& (1 <<< k) = s.buts &&& (1 <<< k)) :
    mouse_buttons env s b = s ∨ mouse_buttons env s b = { s with buts := b } := by
  unfold mouse_buttons
  by_cases hs : s.flags &&& FLAG_SCAN_ENABLED ≠ 0
  · rw [if_pos hs]
    right
    rcases h with h | h
    · exact absurd h hs
    · simp only [List.foldl]
      rw [mouse_button_unchanged env b s 0 (h 0 (by decide)),
        mouse_button_unchanged env b s 1 (h 1 (by decide)),
        mouse_button_unchanged env b s 2 (h 2 (by decide))]
  · rw [if_neg hs]
    left
    rfl

theorem send_flags (env : Env) (s : State) (state byte : Nat) :
    (archie_kbd_send env s state byte).flags = s.flags ∧
    (archie_kbd_send env s state byte).buts = s.buts := by
  by_cases h : s.kbd_state ≠ STATE_WAIT4ACK1 ∧ s.kbd_state ≠ STATE_WAIT4ACK2
  · rw [send_direct env s state byte h]
    exact ⟨rfl, rfl⟩
  · rw [send_queued env s state byte (by omega)]
    unfold archie_kbd_enqueue
    split <;> exact ⟨rfl, rfl⟩

theorem mouse_flush_idle (env : Env) (s : State) (hidle : s.kbd_state = STATE_IDLE)
    (hmouse : s.flags &&& FLAG_MOUSE_ENABLED ≠ 0) (hnz : s.mouse_x ≠ 0 ∨ s.mouse_y ≠ 0)
    (hwf : QueueWF s) (hempty : s.tx_queue_rptr = s.tx_queue_wptr) :
    (mouse_flush env s).tx_log =
      s.tx_log ++ [⟨STATE_IDLE, STATE_WAIT4ACK1, low7 s.mouse_x⟩] ∧
    queue_frames (mouse_flush env s) = [(STATE_WAIT4ACK2, low7 s.mouse_y)] ∧
    (mouse_flush env s).send_log =
      s.send_log ++ [(STATE_WAIT4ACK1, low7 s.mouse_x), (STATE_WAIT4ACK2, low7 s.mouse_y)] ∧
    (mouse_flush env s).kbd_state = STATE_WAIT4ACK1 ∧
    (mouse_flush env s).mouse_x = 0 ∧ (mouse_flush env s).mouse_y = 0 ∧
    (mouse_flush env s).flags = s.flags ∧ (mouse_flush env s).buts = s.buts := by
  have hd : s.kbd_state ≠ STATE_WAIT4ACK1 ∧ s.kbd_state ≠ STATE_WAIT4ACK2 := by
    rw [hidle]; exact ⟨by decide, by decide⟩
  have h1 := send_direct env s STATE_WAIT4ACK1 (low7 s.mouse_x) hd
  have hk1 : (archie_kbd_send env s STATE_WAIT4ACK1 (low7 s.mouse_x)).kbd_state =
      STATE_WAIT4ACK1 := by rw [h1]; rfl
  have hwf1 : QueueWF (archie_kbd_send env s STATE_WAIT4ACK1 (low7 s.mouse_x)) :=
    send_wf env s _ _ hwf
  have he1 : (archie_kbd_send env s STATE_WAIT4ACK1 (low7 s.mouse_x)).tx_queue_rptr =
      (archie_kbd_send env s STATE_WAIT4ACK1 (low7 s.mouse_x)).tx_queue_wptr := by
    rw [h1]; exact hempty
  have hlog1 : (archie_kbd_send env s STATE_WAIT4ACK1 (low7 s.mouse_x)).tx_log =
      s.tx_log ++ [⟨STATE_IDLE, STATE_WAIT4ACK1, low7 s.mouse_x⟩] := by
    rw [h1]; simp [archie_kbd_tx, hidle]
  have hsl1 : (archie_kbd_send env s STATE_WAIT4ACK1 (low7 s.mouse_x)).send_log =
      s.send_log ++ [(STATE_WAIT4ACK1, low7 s.mouse_x)] := by
    rw [h1]; rfl
  have hmy := (send_mouse env s STATE_WAIT4ACK1 (low7 s.mouse_x)).2
  obtain ⟨g1, g2, _, g4, g5, _⟩ := send_queued_effect env
    (archie_kbd_send env s STATE_WAIT4ACK1 (low7 s.mouse_x)) STATE_WAIT4ACK2
    (low7 (archie_kbd_send env s STATE_WAIT4ACK1 (low7 s.mouse_x)).mouse_y) hwf1 (Or.inl hk1)
  have hc1 : queue_count (archie_kbd_send env s STATE_WAIT4ACK1 (low7 s.mouse_x)) = 0 :=
    (queue_empty_iff _ hwf1).mp he1
  have g5' := (g5 (by omega)).1
  rw [queue_frames_of_empty _ he1, List.nil_append, hmy] at g5'
  rw [hmy] at g1 g2 g4
  have hf2 := send_flags env (archie_kbd_send env s STATE_WAIT4ACK1 (low7 s.mouse_x))
    STATE_WAIT4ACK2 (low7 s.mouse_y)
  have hf1 := send_flags env s STATE_WAIT4ACK1 (low7 s.mouse_x)
  unfold mouse_flush
  rw [if_pos ⟨hmouse, hnz⟩, if_pos hidle]
  dsimp only
  rw [hmy]
  refine ⟨?_, g5', ?_, ?_, rfl, rfl, ?_, ?_⟩
  · show (archie_kbd_send env _ STATE_WAIT4ACK2 (low7 s.mouse_y)).tx_log = _
    rw [g1, hlog1]
  · show (archie_kbd_send env _ STATE_WAIT4ACK2 (low7 s.mouse_y)).send_log = _
    rw [g4, hsl1]
    simp
  · show (archie_kbd_send env _ STATE_WAIT4ACK2 (low7 s.mouse_y)).kbd_state = _
    rw [g2, hk1]
  · show (archie_kbd_send env _ STATE_WAIT4ACK2 (low7 s.mouse_y)).flags = _
    rw [hf2.1, hf1.1]
  · show (archie_kbd_send env _ STATE_WAIT4ACK2 (low7 s.mouse_y)).buts = _
    rw [hf2.2, hf1.2]

theorem mouse_limit_eq_zero (v : Int) : mouse_limit v = 0 ↔ v = 0 := by
  unfold mouse_limit
  dsimp only
  by_cases h1 : v > 63
  · rw [if_pos h1, if_neg (by decide)]
    omega
  · rw [if_neg h1]
    by_cases h2 : v < -64
    · rw [if_pos h2]
      omega
    · rw [if_neg h2]

/-- C8, refuted: for `archie_mouse(0, 5, -3)` on an idle link only the byte `0x05` is
transmitted; `0x03` is queued with target `STATE_WAIT4ACK2`. -/
theorem mouse_flush_idle_counterexample :
    idle_mouse_state.kbd_state = STATE_IDLE ∧
    idle_mouse_state.flags &&& FLAG_MOUSE_ENABLED ≠ 0 ∧
    (idle_mouse_state.mouse_x = 0 ∧ idle_mouse_state.mouse_y = 0) ∧
    idle_mouse_state.tx_queue_rptr = idle_mouse_state.tx_queue_wptr ∧
    sent_bytes idle_mouse_state = [] ∧
    sent_bytes (archie_mouse quiet_env idle_mouse_state 0 5 (-3)) = [0x05] ∧
    sent_bytes (archie_mouse quiet_env idle_mouse_state 0 5 (-3)) ≠ [0x05, 0x03] ∧
    queue_frames (archie_mouse quiet_env idle_mouse_state 0 5 (-3)) =
      [(STATE_WAIT4ACK2, 0x03)] ∧
    (archie_mouse quiet_env idle_mouse_state 0 5 (-3)).kbd_state = STATE_WAIT4ACK1 := by
  decide

/-- C8, amended: for signed 8-bit `(dx, dy) ≠ (0, 0)`, on an idle link with the mouse
enabled, the accumulator at `(0, 0)`, an empty queue and no button change,
`archie_mouse(b, dx, dy)` transmits exactly one byte, `mouse_x & 0x7f`, queues the frame
`(STATE_WAIT4ACK2, mouse_y & 0x7f)`, clears the accumulator and leaves the link in
`STATE_WAIT4ACK1`; here `mouse_x` is `dx` and `mouse_y` is `-dy`, each limited to
`[-64, 63]`. -/
theorem mouse_flush_idle_amended (env : Env) (s : State) (b : Nat) (dx dy : Int)
    (hdx : -128 ≤ dx ∧ dx ≤ 127) (hdy : -128 ≤ dy ∧ dy ≤ 127) (hnz : dx ≠ 0 ∨ dy ≠ 0)
    (hidle : s.kbd_state = STATE_IDLE) (hmouse : s.flags &&& FLAG_MOUSE_ENABLED ≠ 0)
    (hacc : s.mouse_x = 0 ∧ s.mouse_y = 0)
    (hwf : QueueWF s) (hempty : s.tx_queue_rptr = s.tx_queue_wptr)
    (hbut : s.flags &&& FLAG_SCAN_ENABLED = 0 ∨
      ∀ k < 3, b &&& (1 <<< k) = s.buts &&& (1 <<< k)) :
    (archie_mouse env s b dx dy).tx_log =
      s.tx_log ++ [⟨STATE_IDLE, STATE_WAIT4ACK1, low7 (mouse_limit dx)⟩] ∧
    sent_bytes (archie_mouse env s b dx dy) = sent_bytes s ++ [low7 (mouse_limit dx)] ∧
    queue_frames (archie_mouse env s b dx dy) =
      [(STATE_WAIT4ACK2, low7 (mouse_limit (-dy)))] ∧
    (archie_mouse env s b dx dy).send_log =
      s.send_log ++ [(STATE_WAIT4ACK1, low7 (mouse_limit dx)),
        (STATE_WAIT4ACK2, low7 (mouse_limit (-dy)))] ∧
    (archie_mouse env s b dx dy).kbd_state = STATE_WAIT4ACK1 ∧
    (archie_mouse env s b dx dy).mouse_x = 0 ∧ (archie_mouse env s b dx dy).mouse_y = 0 := by
  obtain ⟨a1, a2, a3, a4, a5, a6, a7, a8, a9, a10⟩ := mouse_accumulate_fields s dx dy
  rw [hacc.1, Int.zero_add, toShort_of_range dx (by omega) (by omega)] at a1
  rw [hacc.2, Int.zero_sub, toShort_of_range (-dy) (by omega) (by omega)] at a2
  have hnz' : (mouse_accumulate s dx dy).mouse_x ≠ 0 ∨ (mouse_accumulate s dx dy).mouse_y ≠ 0 := by
    rw [a1, a2]
    rcases hnz with h | h
    · exact Or.inl fun h0 => h ((mouse_limit_eq_zero dx).mp h0)
    · exact Or.inr fun h0 => h (by have := (mouse_limit_eq_zero (-dy)).mp h0; omega)
  have hwf' : QueueWF (mouse_accumulate s dx dy) := hwf
  obtain ⟨f1, f2, f3, f4, f5, f6, f7, f8⟩ := mouse_flush_idle env (mouse_accumulate s dx dy)
    (by rw [a3, hidle]) (by rw [a4]; exact hmouse) hnz' hwf' (by rw [a9, a10]; exact hempty)
  rw [a1, a6] at f1
  rw [a2] at f2
  rw [a1, a2, a7] at f3
  have hq := mouse_buttons_quiet env (mouse_flush env (mouse_accumulate s dx dy)) b
    (by rw [f7, f8, a4, a5]; exact hbut)
  have hns : ¬ (mouse_accumulate s dx dy).kbd_state ≤ STATE_RAK2 := by
    rw [a3, hidle]; decide
  unfold archie_mouse
  dsimp only
  rw [if_neg hns]
  rcases hq with hq | hq <;> rw [hq]
  · exact ⟨f1, by simp [sent_bytes, f1], f2, f3, f4, f5, f6⟩
  · exact ⟨f1, by simp [sent_bytes, f1], f2, f3, f4, f5, f6⟩

/-- C8, amended, at the sample input of the specification: `archie_mouse(0, 5, -3)`. -/
theorem mouse_flush_idle_amended_witness :
    sent_bytes (archie_mouse quiet_env idle_mouse_state 0 5 (-3)) =
      sent_bytes idle_mouse_state ++ [low7 (mouse_limit 5)] ∧
    queue_frames (archie_mouse quiet_env idle_mouse_state 0 5 (-3)) =
      [(STATE_WAIT4ACK2, low7 (mouse_limit (- -3)))] ∧
    low7 (mouse_limit 5) = 0x05 ∧ low7 (mouse_limit (- -3)) = 0x03 :=
  ⟨(mouse_flush_idle_amended quiet_env idle_mouse_state 0 5 (-3) (by decide) (by decide)
      (by decide) (by decide) (by decide) (by decide) (by decide) (by decide)
      (Or.inl (by decide))).2.1,
    (mouse_flush_idle_amended quiet_env idle_mouse_state 0 5 (-3) (by decide) (by decide)
      (by decide) (by decide) (by decide) (by decide) (by decide) (by decide)
      (Or.inl (by decide))).2.2.1,
    by decide, by decide⟩

/-! ## C9: key encoding -/

theorem send_log_send (env : Env) (s : State) (state byte : Nat) :
    (archie_kbd_send env s state byte).send_log = s.send_log ++ [(state, byte)] := by
  by_cases h : s.kbd_state ≠ STATE_WAIT4ACK1 ∧ s.kbd_state ≠ STATE_WAIT4ACK2
  · rw [send_direct env s state byte h]
    rfl
  · rw [send_queued env s state byte (by omega)]
    exact (enqueue_logs _ state byte).1

theorem or_mod_two_pow (a b n : Nat) : (a ||| b) % 2 ^ n = a % 2 ^ n ||| b % 2 ^ n := by
  apply Nat.eq_of_testBit_eq
  intro i
  simp only [Nat.testBit_mod_two_pow, Nat.testBit_or]
  cases decide (i < n) <;> simp

theorem and_two_pow_eq_zero (n k : Nat) : n &&& 2 ^ k = 0 ↔ n / 2 ^ k % 2 = 0 := by
  rw [Nat.and_two_pow]
  rcases Nat.mod_two_eq_zero_or_one (n / 2 ^ k) with h | h
  · have : n.testBit k = false := by simp [Nat.testBit_to_div_mod, h]
    simp [this, h]
  · have : n.testBit k = true := by simp [Nat.testBit_to_div_mod, h]
    simp [this, h]

theorem key_marker_cases (code : Nat) :
    (code / 32768 % 2 = 0 ∧ key_marker code = KDDA) ∨
    (code / 32768 % 2 = 1 ∧ key_marker code = KUDA) := by
  have h := and_two_pow_eq_zero code 15
  norm_num at h
  unfold key_marker
  by_cases h0 : code &&& 0x8000 = 0
  · left
    exact ⟨h.mp h0, by rw [if_neg (not_not.mpr h0)]⟩
  · right
    refine ⟨?_, by rw [if_pos h0]⟩
    have := mt h.mpr h0
    omega

set_option maxRecDepth 100000 in
theorem marker_or_nibble :
    ∀ m < 256,
      ((KDDA ||| m = KDDA ||| m % 16 ↔ m / 16 % 4 = 0) ∧
        (KUDA ||| m = KUDA ||| m % 16 ↔ m / 32 % 2 = 0)) ∧
      (KDDA ||| m % 16) &&& 0xf0 = KDDA ∧ (KUDA ||| m % 16) &&& 0xf0 = KUDA ∧
      (KDDA ||| m % 16) &&& 0x0f = m % 16 ∧ (KUDA ||| m % 16) &&& 0x0f = m % 16 := by
  decide

theorem key_first_byte (code : Nat) :
    (key_marker code ||| (code >>> 4)) % 256 = key_marker code ||| (code / 16 % 256) := by
  have h := or_mod_two_pow (key_marker code) (code >>> 4) 8
  have hm : key_marker code % 256 = key_marker code := by
    rcases key_marker_cases code with ⟨_, h⟩ | ⟨_, h⟩ <;> rw [h] <;> decide
  rw [Nat.shiftRight_eq_div_pow] at h ⊢
  norm_num at h ⊢
  rw [h, hm]

theorem key_second_byte (code : Nat) :
    (key_marker code ||| (code &&& 0x0f)) % 256 = key_marker code ||| (code &&& 0x0f) ∧
    (key_marker code ||| (code &&& 0x0f)) &&& 0xf0 = key_marker code ∧
    (key_marker code ||| (code &&& 0x0f)) &&& 0x0f = code % 16 := by
  have h15 : code &&& 0x0f = code % 16 := Nat.and_pow_two_sub_one_eq_mod code 4
  have hlt : code % 16 < 256 := by omega
  have hmod : code % 16 % 16 = code % 16 := by omega
  obtain ⟨_, h1, h2, h3, h4⟩ := marker_or_nibble (code % 16) hlt
  rw [hmod] at h1 h2 h3 h4
  rw [h15]
  rcases key_marker_cases code with ⟨_, h⟩ | ⟨_, h⟩ <;> rw [h]
  · refine ⟨?_, h1, h3⟩
    apply Nat.mod_eq_of_lt
    exact @Nat.or_lt_two_pow _ _ 8 (by decide) (by omega)
  · refine ⟨?_, h2, h4⟩
    apply Nat.mod_eq_of_lt
    exact @Nat.or_lt_two_pow _ _ 8 (by decide) (by omega)

theorem key_first_byte_nibble (code : Nat) :
    ((key_marker code ||| (code >>> 4)) % 256 = key_marker code ||| ((code >>> 4) &&& 0x0f) ↔
      code &&& 0x200 = 0 ∧ (code &&& 0x100 = 0 ∨ code &&& 0x8000 ≠ 0)) ∧
    (code &&& 0x200 = 0 ∧ (code &&& 0x100 = 0 ∨ code &&& 0x8000 ≠ 0) →
      (key_marker code ||| (code >>> 4)) % 256 &&& 0xf0 = key_marker code ∧
      (key_marker code ||| (code >>> 4)) % 256 &&& 0x0f = code / 16 % 16) := by
  have h9 := and_two_pow_eq_zero code 9
  have h8 := and_two_pow_eq_zero code 8
  have h15 := and_two_pow_eq_zero code 15
  norm_num at h9 h8 h15
  have hn : (code >>> 4) &&& 0x0f = code / 16 % 256 % 16 := by
    rw [Nat.shiftRight_eq_div_pow]
    have := Nat.and_pow_two_sub_one_eq_mod (code / 2 ^ 4) 4
    norm_num at this ⊢
    rw [this]
  have hlt : code / 16 % 256 < 256 := by omega
  obtain ⟨⟨e1, e2⟩, n1, n2, n3, n4⟩ := marker_or_nibble (code / 16 % 256) hlt
  have hcond : code &&& 0x200 = 0 ∧ (code &&& 0x100 = 0 ∨ code &&& 0x8000 ≠ 0) ↔
      code / 512 % 2 = 0 ∧ (code / 256 % 2 = 0 ∨ code / 32768 % 2 = 1) := by
    rw [h9, h8, Ne, h15]
    omega
  rw [key_first_byte, hn, hcond]
  rcases key_marker_cases code with ⟨hb, h⟩ | ⟨hb, h⟩ <;> rw [h]
  · have hiff : KDDA ||| code / 16 % 256 = KDDA ||| code / 16 % 256 % 16 ↔
        code / 512 % 2 = 0 ∧ (code / 256 % 2 = 0 ∨ code / 32768 % 2 = 1) := by
      rw [e1]
      omega
    refine ⟨hiff, fun hc => ?_⟩
    rw [hiff.mpr hc]
    exact ⟨n1, by rw [n3]; omega⟩
  · have hiff : KUDA ||| code / 16 % 256 = KUDA ||| code / 16 % 256 % 16 ↔
        code / 512 % 2 = 0 ∧ (code / 256 % 2 = 0 ∨ code / 32768 % 2 = 1) := by
      rw [e2]
      omega
    refine ⟨hiff, fun hc => ?_⟩
    rw [hiff.mpr hc]
    exact ⟨n2, by rw [n4]; omega⟩

/-- C9, refuted: for the key code `0x0112` (a key-down code with bit 8 set) the first
frame carries `0xd1`, not `KDDA | 0x1 = 0xc1`; its upper nibble is that of `KUDA`. -/
theorem key_encoding_counterexample :
    idle_scan_state.flags &&& FLAG_SCAN_ENABLED ≠ 0 ∧
    STATE_RAK2 < idle_scan_state.kbd_state ∧
    (archie_kbd quiet_env idle_scan_state 0x0112).send_log =
      [(STATE_WAIT4ACK1, 0xd1), (STATE_WAIT4ACK2, 0xc2)] ∧
    key_marker 0x0112 = KDDA ∧
    key_marker 0x0112 ||| ((0x0112 >>> 4) &&& 0x0f) = 0xc1 ∧
    0xd1 &&& 0xf0 ≠ key_marker 0x0112 := by
  decide

/-- C9, amended: with key scanning enabled and the link past the handshake, `archie_kbd`
hands exactly two frames to `archie_kbd_send`: `(STATE_WAIT4ACK1, (m | (code >> 4)) & 0xff)`
and then `(STATE_WAIT4ACK2, m | (code & 0x0f))`, where `m` is `KUDA` if bit 15 of `code` is
set and `KDDA` otherwise.  The second byte has upper nibble `m` and lower nibble bits 0..3
of `code`.  The first byte is `m | bits 4..7 of code` exactly when bit 9 of `code` is clear
and bit 8 is clear or bit 15 is set; then its upper nibble is `m` too. -/
theorem key_encoding_amended (env : Env) (s : State) (code : Nat)
    (hscan : s.flags &&& FLAG_SCAN_ENABLED ≠ 0) (hstate : STATE_RAK2 < s.kbd_state) :
    archie_kbd env s code =
      archie_kbd_send env
        (archie_kbd_send env s STATE_WAIT4ACK1 ((key_marker code ||| (code >>> 4)) % 256))
        STATE_WAIT4ACK2 (key_marker code ||| (code &&& 0x0f)) ∧
    (archie_kbd env s code).send_log =
      s.send_log ++ [(STATE_WAIT4ACK1, (key_marker code ||| (code >>> 4)) % 256),
        (STATE_WAIT4ACK2, key_marker code ||| (code &&& 0x0f))] ∧
    (key_marker code ||| (code &&& 0x0f)) &&& 0xf0 = key_marker code ∧
    (key_marker code ||| (code &&& 0x0f)) &&& 0x0f = code % 16 ∧
    ((key_marker code ||| (code >>> 4)) % 256 = key_marker code ||| ((code >>> 4) &&& 0x0f) ↔
      code &&& 0x200 = 0 ∧ (code &&& 0x100 = 0 ∨ code &&& 0x8000 ≠ 0)) ∧
    (code &&& 0x200 = 0 ∧ (code &&& 0x100 = 0 ∨ code &&& 0x8000 ≠ 0) →
      (key_marker code ||| (code >>> 4)) % 256 &&& 0xf0 = key_marker code ∧
      (key_marker code ||| (code >>> 4)) % 256 &&& 0x0f = code / 16 % 16) := by
  obtain ⟨b1, b2, b3⟩ := key_second_byte code
  have hk : archie_kbd env s code =
      archie_kbd_send env
        (archie_kbd_send env s STATE_WAIT4ACK1 ((key_marker code ||| (code >>> 4)) % 256))
        STATE_WAIT4ACK2 (key_marker code ||| (code &&& 0x0f)) := by
    unfold archie_kbd
    rw [if_neg (by omega), if_neg hscan]
    dsimp only
    rw [b1]
  refine ⟨hk, ?_, b2, b3, (key_first_byte_nibble code).1, (key_first_byte_nibble code).2⟩
  rw [hk, send_log_send, send_log_send]
  simp

/-- C9, amended, at a sample input: key `0x12` released (`0x8012`). -/
theorem key_encoding_amended_witness :
    idle_scan_state.flags &&& FLAG_SCAN_ENABLED ≠ 0 ∧
    STATE_RAK2 < idle_scan_state.kbd_state ∧
    (archie_kbd quiet_env idle_scan_state 0x8012).send_log =
      idle_scan_state.send_log ++
        [(STATE_WAIT4ACK1, (key_marker 0x8012 ||| (0x8012 >>> 4)) % 256),
          (STATE_WAIT4ACK2, key_marker 0x8012 ||| (0x8012 &&& 0x0f))] ∧
    (key_marker 0x8012 ||| (0x8012 >>> 4)) % 256 = 0xd1 ∧
    key_marker 0x8012 ||| (0x8012 &&& 0x0f) = 0xd2 :=
  ⟨by decide, by decide,
    (key_encoding_amended quiet_env idle_scan_state 0x8012 (by decide) (by decide)).2.1,
    by decide, by decide⟩

/-! ## C7: accumulation while the link is busy -/

theorem mouse_limit_eq_clamp (v : Int) : mouse_limit v = clamp_spec v := by
  unfold clamp_spec
  by_cases h1 : v > 63
  · have := mouse_limit_range v
    unfold mouse_limit at *
    dsimp only at *
    rw [if_pos h1, if_neg (by decide)]
    omega
  · by_cases h2 : v < -64
    · unfold mouse_limit
      dsimp only
      rw [if_neg h1, if_pos h2]
      omega
    · rw [mouse_limit_of_range v (by omega) (by omega)]
      omega

theorem limited_sum_append (a : Int) (ds : List Int) (d : Int) :
    limited_sum a (ds ++ [d]) = mouse_limit (limited_sum a ds + d) := by
  simp [limited_sum, List.foldl_append]

theorem limited_sum_range (a : Int) (ds : List Int) (h : -64 ≤ a ∧ a ≤ 63) :
    -64 ≤ limited_sum a ds ∧ limited_sum a ds ≤ 63 := by
  induction ds generalizing a with
  | nil => exact h
  | cons d rest ih => exact ih _ (mouse_limit_range _)

theorem limited_sum_exact (ds : List Int) (a : Int)
    (h : ∀ k ≤ ds.length, -64 ≤ a + (ds.take k).sum ∧ a + (ds.take k).sum ≤ 63) :
    limited_sum a ds = a + ds.sum := by
  induction ds generalizing a with
  | nil => simp [limited_sum]
  | cons d rest ih =>
    have h1 := h 1 (by simp)
    simp only [List.take_succ_cons, List.take_zero, List.sum_cons, List.sum_nil,
      Int.add_zero] at h1
    have hl : mouse_limit (a + d) = a + d := mouse_limit_of_range _ h1.1 h1.2
    have hrest : limited_sum a (d :: rest) = limited_sum (a + d) rest := by
      simp [limited_sum, hl]
    rw [hrest, ih (a + d), List.sum_cons, Int.add_assoc]
    intro k hk
    have hk' := h (k + 1) (by simp; omega)
    simp only [List.take_succ_cons, List.sum_cons] at hk'
    omega

theorem limited_sum_clamp (ds : List Int)
    (h : ∀ k < ds.length, -64 ≤ (ds.take k).sum ∧ (ds.take k).sum ≤ 63) :
    limited_sum 0 ds = clamp_spec ds.sum := by
  rcases List.eq_nil_or_concat ds with hnil | ⟨front, d, hd⟩
  · subst hnil
    simp [limited_sum, clamp_spec]
  · rw [List.concat_eq_append] at hd
    subst hd
    have hfront : limited_sum 0 front = 0 + front.sum := by
      apply limited_sum_exact
      intro k hk
      have hk' := h k (by simp; omega)
      rw [List.take_append_of_le_length hk] at hk'
      omega
    rw [limited_sum_append, hfront, mouse_limit_eq_clamp, List.sum_append]
    simp

theorem send_queued_keeps (env : Env) (s : State) (state byte : Nat)
    (h : s.kbd_state = STATE_WAIT4ACK1 ∨ s.kbd_state = STATE_WAIT4ACK2) :
    (archie_kbd_send env s state byte).tx_log = s.tx_log ∧
    (archie_kbd_send env s state byte).kbd_state = s.kbd_state := by
  rw [send_queued env s state byte h]
  unfold archie_kbd_enqueue
  split <;> exact ⟨rfl, rfl⟩

theorem mouse_buttons_keeps {Q : State → Prop} (env : Env) (b : Nat)
    (hsend : ∀ (u : State) (state byte : Nat), Q u → Q (archie_kbd_send env u state byte))
    (hbuts : ∀ u : State, Q u → Q { u with buts := b })
    (s : State) (h : Q s) : Q (mouse_buttons env s b) := by
  have hb : ∀ (u : State) (k : Nat), Q u → Q (mouse_button env b u k) := by
    intro u k hu
    unfold mouse_button
    dsimp only
    split
    · exact hsend _ _ _ (hsend _ _ _ hu)
    · exact hu
  unfold mouse_buttons
  split
  · apply hbuts
    simp only [List.foldl]
    exact hb _ _ (hb _ _ (hb _ _ h))
  · exact h

/-- While the link waits for an ack, the button block of `archie_mouse` transmits
nothing, keeps `kbd_state` and the accumulator, and only adds to `send_log`. -/
theorem mouse_buttons_busy (env : Env) (s : State) (b : Nat)
    (h : s.kbd_state = STATE_WAIT4ACK1 ∨ s.kbd_state = STATE_WAIT4ACK2) :
    (mouse_buttons env s b).kbd_state = s.kbd_state ∧
    (mouse_buttons env s b).tx_log = s.tx_log ∧
    (mouse_buttons env s b).mouse_x = s.mouse_x ∧
    (mouse_buttons env s b).mouse_y = s.mouse_y ∧
    ∃ more, (mouse_buttons env s b).send_log = s.send_log ++ more := by
  have key := @mouse_buttons_keeps
    (fun u => u.kbd_state = s.kbd_state ∧ u.tx_log = s.tx_log ∧ u.mouse_x = s.mouse_x ∧
      u.mouse_y = s.mouse_y ∧ ∃ more, u.send_log = s.send_log ++ more) env b
    (by
      rintro u state byte ⟨q1, q2, q3, q4, more, q5⟩
      have hu : u.kbd_state = STATE_WAIT4ACK1 ∨ u.kbd_state = STATE_WAIT4ACK2 := by
        rw [q1]; exact h
      obtain ⟨k1, k2⟩ := send_queued_keeps env u state byte hu
      obtain ⟨m1, m2⟩ := send_mouse env u state byte
      refine ⟨by rw [k2, q1], by rw [k1, q2], by rw [m1, q3], by rw [m2, q4],
        more ++ [(state, byte)], ?_⟩
      rw [send_log_send, q5, List.append_assoc])
    (fun u hu => hu) s ⟨rfl, rfl, rfl, rfl, [], by simp⟩
  exact key

theorem mouse_flush_busy (env : Env) (s : State) (h : s.kbd_state ≠ STATE_IDLE) :
    mouse_flush env s = s := by
  unfold mouse_flush
  rw [if_neg h]
  exact ite_self s

theorem archie_mouse_busy (env : Env) (s : State) (b : Nat) (x y : Int)
    (h : s.kbd_state = STATE_WAIT4ACK1 ∨ s.kbd_state = STATE_WAIT4ACK2) :
    (archie_mouse env s b x y).kbd_state = s.kbd_state ∧
    (archie_mouse env s b x y).tx_log = s.tx_log ∧
    (archie_mouse env s b x y).mouse_x = mouse_limit (toShort (s.mouse_x + x)) ∧
    (archie_mouse env s b x y).mouse_y = mouse_limit (toShort (s.mouse_y - y)) := by
  have hk : (mouse_accumulate s x y).kbd_state = s.kbd_state := rfl
  have hns : ¬ (mouse_accumulate s x y).kbd_state ≤ STATE_RAK2 := by
    rw [hk]; rcases h with h | h <;> rw [h] <;> decide
  have hni : (mouse_accumulate s x y).kbd_state ≠ STATE_IDLE := by
    rw [hk]; rcases h with h | h <;> rw [h] <;> decide
  unfold archie_mouse
  dsimp only
  rw [if_neg hns, mouse_flush_busy env _ hni]
  obtain ⟨p1, p2, p3, p4, _⟩ := mouse_buttons_busy env (mouse_accumulate s x y) b (by rw [hk]; exact h)
  exact ⟨p1, p2, p3, p4⟩

theorem mouse_run_busy (calls : List MouseCall) (s : State)
    (hbusy : s.kbd_state = STATE_WAIT4ACK1 ∨ s.kbd_state = STATE_WAIT4ACK2)
    (hx : -64 ≤ s.mouse_x ∧ s.mouse_x ≤ 63) (hy : -64 ≤ s.mouse_y ∧ s.mouse_y ≤ 63)
    (h8 : ∀ c ∈ calls, -128 ≤ c.x ∧ c.x ≤ 127 ∧ -128 ≤ c.y ∧ c.y ≤ 127) :
    (mouse_run s calls).kbd_state = s.kbd_state ∧
    (mouse_run s calls).tx_log = s.tx_log ∧
    (mouse_run s calls).mouse_x = limited_sum s.mouse_x (calls.map fun c => c.x) ∧
    (mouse_run s calls).mouse_y = limited_sum s.mouse_y (calls.map fun c => -c.y) := by
  induction calls generalizing s with
  | nil => exact ⟨rfl, rfl, rfl, rfl⟩
  | cons c rest ih =>
    obtain ⟨c1, c2, c3, c4⟩ := h8 c (List.mem_cons_self _ _)
    obtain ⟨a1, a2, a3, a4⟩ := archie_mouse_busy c.env s c.b c.x c.y hbusy
    rw [toShort_of_range _ (by omega) (by omega)] at a3 a4
    have ih' := ih (archie_mouse c.env s c.b c.x c.y) (by rw [a1]; exact hbusy)
      (by rw [a3]; exact mouse_limit_range _) (by rw [a4]; exact mouse_limit_range _)
      (fun c' hc' => h8 c' (List.mem_cons_of_mem _ hc'))
    obtain ⟨i1, i2, i3, i4⟩ := ih'
    have hrun : mouse_run s (c :: rest) = mouse_run (archie_mouse c.env s c.b c.x c.y) rest := rfl
    rw [hrun]
    refine ⟨by rw [i1, a1], by rw [i2, a2], ?_, ?_⟩
    · rw [i3, a3]
      simp [limited_sum]
    · rw [i4, a4]
      simp [limited_sum, Int.sub_eq_add_neg]

theorem mouse_flush_idle_logs (env : Env) (s : State) (hidle : s.kbd_state = STATE_IDLE)
    (hmouse : s.flags &&& FLAG_MOUSE_ENABLED ≠ 0) (hnz : s.mouse_x ≠ 0 ∨ s.mouse_y ≠ 0) :
    (mouse_flush env s).tx_log =
      s.tx_log ++ [⟨STATE_IDLE, STATE_WAIT4ACK1, low7 s.mouse_x⟩] ∧
    (mouse_flush env s).send_log =
      s.send_log ++ [(STATE_WAIT4ACK1, low7 s.mouse_x), (STATE_WAIT4ACK2, low7 s.mouse_y)] ∧
    (mouse_flush env s).kbd_state = STATE_WAIT4ACK1 := by
  have hd : s.kbd_state ≠ STATE_WAIT4ACK1 ∧ s.kbd_state ≠ STATE_WAIT4ACK2 := by
    rw [hidle]; exact ⟨by decide, by decide⟩
  have h1 := send_direct env s STATE_WAIT4ACK1 (low7 s.mouse_x) hd
  have hk1 : (archie_kbd_send env s STATE_WAIT4ACK1 (low7 s.mouse_x)).kbd_state =
      STATE_WAIT4ACK1 := by rw [h1]; rfl
  have hlog1 : (archie_kbd_send env s STATE_WAIT4ACK1 (low7 s.mouse_x)).tx_log =
      s.tx_log ++ [⟨STATE_IDLE, STATE_WAIT4ACK1, low7 s.mouse_x⟩] := by
    rw [h1]; simp [archie_kbd_tx, hidle]
  have hmy := (send_mouse env s STATE_WAIT4ACK1 (low7 s.mouse_x)).2
  obtain ⟨g1, g2⟩ := send_queued_keeps env
    (archie_kbd_send env s STATE_WAIT4ACK1 (low7 s.mouse_x)) STATE_WAIT4ACK2
    (low7 s.mouse_y) (Or.inl hk1)
  unfold mouse_flush
  rw [if_pos ⟨hmouse, hnz⟩, if_pos hidle]
  dsimp only
  rw [hmy]
  refine ⟨?_, ?_, ?_⟩
  · show (archie_kbd_send env _ STATE_WAIT4ACK2 (low7 s.mouse_y)).tx_log = _
    rw [g1, hlog1]
  · show (archie_kbd_send env _ STATE_WAIT4ACK2 (low7 s.mouse_y)).send_log = _
    rw [send_log_send, send_log_send]
    simp
  · show (archie_kbd_send env _ STATE_WAIT4ACK2 (low7 s.mouse_y)).kbd_state = _
    rw [g2, hk1]

/-- C7, refuted: in `saturating_trace` the pointer event `x = 100` arrives while the
link waits for an ack (the accumulator was flushed just before) and `x = -50` arrives
on the idle link; the flush transmits `13` (the first event saturated at `63`), while
the clamped sum of the two deltas is `50`. -/
theorem mouse_accumulation_counterexample :
    (run init_state (saturating_trace.take 5)).kbd_state = STATE_WAIT4ACK1 ∧
    (run init_state (saturating_trace.take 5)).mouse_x = 0 ∧
    (run init_state (saturating_trace.take 6)).kbd_state = STATE_WAIT4ACK1 ∧
    (run init_state (saturating_trace.take 8)).kbd_state = STATE_IDLE ∧
    sent_bytes (run init_state (saturating_trace.take 8)) = [0xff, 0xfe, 0xfd, 1, 0] ∧
    sent_bytes (run init_state saturating_trace) = [0xff, 0xfe, 0xfd, 1, 0, 13] ∧
    low7 (clamp_spec (100 + -50)) = 50 := by
  decide

/-- C7, amended: let calls of `archie_mouse` with signed 8-bit deltas be made while the
link waits for an ack, starting with the accumulator at `(0, 0)`, and let one more call be
made once the link is idle with the mouse enabled and the accumulator untouched.  The busy
calls transmit nothing and leave `kbd_state` alone.  If the accumulated value is not
`(0, 0)`, the last call hands the frames `(STATE_WAIT4ACK1, X & 0x7f)`,
`(STATE_WAIT4ACK2, Y & 0x7f)` to `archie_kbd_send` and transmits the first, where `X` is
obtained from `0` by adding the x deltas one by one, limiting to `[-64, 63]` after each,
and `Y` likewise from the negated y deltas.  `X` (`Y`) is the clamped sum of the deltas
whenever no partial sum before the last leaves `[-64, 63]`. -/
theorem mouse_accumulation_amended (s : State) (calls : List MouseCall) (t : State)
    (c : MouseCall)
    (hbusy : s.kbd_state = STATE_WAIT4ACK1 ∨ s.kbd_state = STATE_WAIT4ACK2)
    (hacc : s.mouse_x = 0 ∧ s.mouse_y = 0)
    (h8 : ∀ c ∈ calls, -128 ≤ c.x ∧ c.x ≤ 127 ∧ -128 ≤ c.y ∧ c.y ≤ 127)
    (hc8 : -128 ≤ c.x ∧ c.x ≤ 127 ∧ -128 ≤ c.y ∧ c.y ≤ 127)
    (hidle : t.kbd_state = STATE_IDLE) (hmouse : t.flags &&& FLAG_MOUSE_ENABLED ≠ 0)
    (hkeep : t.mouse_x = (mouse_run s calls).mouse_x ∧
      t.mouse_y = (mouse_run s calls).mouse_y)
    (hnz : limited_sum 0 ((calls.map fun c => c.x) ++ [c.x]) ≠ 0 ∨
      limited_sum 0 ((calls.map fun c => -c.y) ++ [-c.y]) ≠ 0) :
    ((mouse_run s calls).kbd_state = s.kbd_state ∧ (mouse_run s calls).tx_log = s.tx_log) ∧
    (archie_mouse c.env t c.b c.x c.y).tx_log =
      t.tx_log ++ [⟨STATE_IDLE, STATE_WAIT4ACK1,
        low7 (limited_sum 0 ((calls.map fun c => c.x) ++ [c.x]))⟩] ∧
    (∃ more, (archie_mouse c.env t c.b c.x c.y).send_log =
      t.send_log ++
        (STATE_WAIT4ACK1, low7 (limited_sum 0 ((calls.map fun c => c.x) ++ [c.x]))) ::
        (STATE_WAIT4ACK2, low7 (limited_sum 0 ((calls.map fun c => -c.y) ++ [-c.y]))) ::
        more) ∧
    ((∀ k < ((calls.map fun c => c.x) ++ [c.x]).length,
        -64 ≤ (((calls.map fun c => c.x) ++ [c.x]).take k).sum ∧
        (((calls.map fun c => c.x) ++ [c.x]).take k).sum ≤ 63) →
      limited_sum 0 ((calls.map fun c => c.x) ++ [c.x]) =
        clamp_spec ((calls.map fun c => c.x) ++ [c.x]).sum) ∧
    ((∀ k < ((calls.map fun c => -c.y) ++ [-c.y]).length,
        -64 ≤ (((calls.map fun c => -c.y) ++ [-c.y]).take k).sum ∧
        (((calls.map fun c => -c.y) ++ [-c.y]).take k).sum ≤ 63) →
      limited_sum 0 ((calls.map fun c => -c.y) ++ [-c.y]) =
        clamp_spec ((calls.map fun c => -c.y) ++ [-c.y]).sum) := by
  obtain ⟨r1, r2, r3, r4⟩ := mouse_run_busy calls s hbusy (by rw [hacc.1]; decide)
    (by rw [hacc.2]; decide) h8
  rw [hacc.1] at r3
  rw [hacc.2] at r4
  have hx := limited_sum_range 0 (calls.map fun c => c.x) (by decide)
  have hy := limited_sum_range 0 (calls.map fun c => -c.y) (by decide)
  obtain ⟨a1, a2, a3, a4, a5, a6, a7, _⟩ := mouse_accumulate_fields t c.x c.y
  rw [hkeep.1, r3, toShort_of_range _ (by omega) (by omega), ← limited_sum_append] at a1
  rw [hkeep.2, r4, toShort_of_range _ (by omega) (by omega), Int.sub_eq_add_neg,
    ← limited_sum_append] at a2
  obtain ⟨f1, f2, f3⟩ := mouse_flush_idle_logs c.env (mouse_accumulate t c.x c.y)
    (by rw [a3, hidle]) (by rw [a4]; exact hmouse) (by rw [a1, a2]; exact hnz)
  rw [a1, a6] at f1
  rw [a1, a2, a7] at f2
  obtain ⟨p1, p2, _, _, more, p5⟩ := mouse_buttons_busy c.env
    (mouse_flush c.env (mouse_accumulate t c.x c.y)) c.b (Or.inl f3)
  have hns : ¬ (mouse_accumulate t c.x c.y).kbd_state ≤ STATE_RAK2 := by
    rw [a3, hidle]; decide
  have hm : archie_mouse c.env t c.b c.x c.y =
      mouse_buttons c.env (mouse_flush c.env (mouse_accumulate t c.x c.y)) c.b := by
    unfold archie_mouse
    dsimp only
    rw [if_neg hns]
  refine ⟨⟨r1, r2⟩, ?_, ⟨more, ?_⟩, limited_sum_clamp _, limited_sum_clamp _⟩
  · rw [hm, p2, f1]
  · rw [hm, p5, f2]
    simp

/-- C7, amended, at a sample input: two busy calls, then a flushing call. -/
theorem mouse_accumulation_amended_witness :
    (archie_mouse quiet_env
      { mouse_run busy_mouse_state [⟨quiet_env, 0, 10, 0⟩, ⟨quiet_env, 0, 20, -5⟩] with
        kbd_state := STATE_IDLE } 0 5 1).tx_log =
      [⟨STATE_IDLE, STATE_WAIT4ACK1, low7 (limited_sum 0 ([10, 20] ++ [5]))⟩] ∧
    low7 (limited_sum 0 ([10, 20] ++ [5])) = 35 :=
  ⟨(mouse_accumulation_amended busy_mouse_state
      [⟨quiet_env, 0, 10, 0⟩, ⟨quiet_env, 0, 20, -5⟩]
      { mouse_run busy_mouse_state [⟨quiet_env, 0, 10, 0⟩, ⟨quiet_env, 0, 20, -5⟩] with
        kbd_state := STATE_IDLE }
      ⟨quiet_env, 0, 5, 1⟩ (by decide) (by decide) (by decide) (by decide) (by decide)
      (by decide) ⟨rfl, rfl⟩ (by decide)).2.1,
    by decide⟩

/-! ## The poll step without timer expiry -/

theorem timeout_checks_quiet (env : Env) (s : State)
    (ht : env.CheckTimer s.ack_timeout = false) :
    reset_timeout_check env (ack_timeout_check env s) = s := by
  have h1 : ack_timeout_check env s = s := by
    unfold ack_timeout_check
    rw [ht]
    simp
  rw [h1]
  unfold reset_timeout_check
  rw [ht]
  simp

theorem poll_rx (env : Env) (s : State) (data : Nat) (hrx : env.rx = some data)
    (ht : env.CheckTimer s.ack_timeout = false) :
    archie_handle_kbd env s = handle_rx env s data := by
  unfold archie_handle_kbd
  dsimp only
  rw [timeout_checks_quiet env s ht, hrx]

/-- What `archie_kbd_send` does outside the two wait states, field by field. -/
theorem send_direct_fields (env : Env) (s : State) (state byte : Nat)
    (h : s.kbd_state ≠ STATE_WAIT4ACK1 ∧ s.kbd_state ≠ STATE_WAIT4ACK2) :
    (archie_kbd_send env s state byte).kbd_state = state ∧
    (archie_kbd_send env s state byte).tx_log = s.tx_log ++ [⟨s.kbd_state, state, byte⟩] ∧
    (archie_kbd_send env s state byte).send_log = s.send_log ++ [(state, byte)] ∧
    (archie_kbd_send env s state byte).ack_timeout = env.GetTimer 10 ∧
    (archie_kbd_send env s state byte).tx_queue = s.tx_queue ∧
    (archie_kbd_send env s state byte).tx_queue_rptr = s.tx_queue_rptr ∧
    (archie_kbd_send env s state byte).tx_queue_wptr = s.tx_queue_wptr ∧
    (archie_kbd_send env s state byte).overflows = s.overflows := by
  rw [send_direct env s state byte h]
  exact ⟨rfl, rfl, rfl, rfl, rfl, rfl, rfl, rfl⟩

theorem sent_bytes_of_log (s s' : State) (l : List TxEvent) (h : s'.tx_log = s.tx_log ++ l) :
    sent_bytes s' = sent_bytes s ++ l.map TxEvent.byte := by
  simp [sent_bytes, h]

/-! ## C11: the reset handshake -/

theorem handle_rx_HRST (env : Env) (s : State) :
    (handle_rx env s HRST).kbd_state = STATE_RAK1 ∧
    (handle_rx env s HRST).tx_log = s.tx_log ++ [⟨STATE_HRST, STATE_RAK1, HRST⟩] ∧
    (handle_rx env s HRST).send_log = s.send_log ++ [(STATE_RAK1, HRST)] ∧
    (handle_rx env s HRST).ack_timeout = env.GetTimer 20 ∧
    (handle_rx env s HRST).tx_queue = s.tx_queue ∧
    (handle_rx env s HRST).tx_queue_rptr = 0 ∧
    (handle_rx env s HRST).tx_queue_wptr = 0 ∧
    (handle_rx env s HRST).overflows = s.overflows := by
  obtain ⟨h1, h2, h3, _, h5, h6, h7, h8⟩ := send_direct_fields env (archie_kbd_reset s)
    STATE_RAK1 HRST ⟨by simp [archie_kbd_reset], by simp [archie_kbd_reset]⟩
  unfold handle_rx
  rw [if_pos rfl]
  exact ⟨h1, h2, h3, rfl, h5, h6, h7, h8⟩

theorem handle_rx_RAK1 (env : Env) (s : State) (h : s.kbd_state = STATE_RAK1) :
    (handle_rx env s RAK1).kbd_state = STATE_RAK2 ∧
    (handle_rx env s RAK1).tx_log = s.tx_log ++ [⟨STATE_RAK1, STATE_RAK2, RAK1⟩] ∧
    (handle_rx env s RAK1).send_log = s.send_log ++ [(STATE_RAK2, RAK1)] ∧
    (handle_rx env s RAK1).ack_timeout = env.GetTimer 20 ∧
    (handle_rx env s RAK1).tx_queue = s.tx_queue ∧
    (handle_rx env s RAK1).tx_queue_rptr = s.tx_queue_rptr ∧
    (handle_rx env s RAK1).tx_queue_wptr = s.tx_queue_wptr ∧
    (handle_rx env s RAK1).overflows = s.overflows := by
  obtain ⟨h1, h2, h3, _, h5, h6, h7, h8⟩ := send_direct_fields env s
    STATE_RAK2 RAK1 (by rw [h]; exact ⟨by decide, by decide⟩)
  rw [h] at h2
  unfold handle_rx
  rw [if_neg (by decide), if_pos rfl, if_pos h]
  exact ⟨h1, h2, h3, rfl, h5, h6, h7, h8⟩

theorem handle_rx_RAK2 (env : Env) (s : State) (h : s.kbd_state = STATE_RAK2) :
    (handle_rx env s RAK2).kbd_state = STATE_IDLE ∧
    (handle_rx env s RAK2).tx_log = s.tx_log ++ [⟨STATE_RAK2, STATE_IDLE, RAK2⟩] ∧
    (handle_rx env s RAK2).send_log = s.send_log ++ [(STATE_IDLE, RAK2)] ∧
    (handle_rx env s RAK2).ack_timeout = env.GetTimer 20 ∧
    (handle_rx env s RAK2).tx_queue = s.tx_queue ∧
    (handle_rx env s RAK2).tx_queue_rptr = s.tx_queue_rptr ∧
    (handle_rx env s RAK2).tx_queue_wptr = s.tx_queue_wptr ∧
    (handle_rx env s RAK2).overflows = s.overflows := by
  obtain ⟨h1, h2, h3, _, h5, h6, h7, h8⟩ := send_direct_fields env s
    STATE_IDLE RAK2 (by rw [h]; exact ⟨by decide, by decide⟩)
  rw [h] at h2
  unfold handle_rx
  rw [if_neg (by decide), if_neg (by decide), if_pos rfl, if_pos h]
  exact ⟨h1, h2, h3, rfl, h5, h6, h7, h8⟩

/-- C11: from any state, three polls that receive `HRST`, `RAK1`, `RAK2` with no timer
expiring transmit exactly the bytes `0xff`, `0xfe`, `0xfd`, each through
`archie_kbd_send`, pass through `STATE_RAK1` and `STATE_RAK2` and end in `STATE_IDLE`;
the queue is empty after the first poll and stays empty, and no slot of `tx_queue` is
written and no overflow counted. -/
theorem reset_handshake (s : State) (e1 e2 e3 : Env)
    (hrx1 : e1.rx = some HRST) (hrx2 : e2.rx = some RAK1) (hrx3 : e3.rx = some RAK2)
    (ht1 : e1.CheckTimer s.ack_timeout = false)
    (ht2 : e2.CheckTimer (e1.GetTimer 20) = false)
    (ht3 : e3.CheckTimer (e2.GetTimer 20) = false) :
    (run s [.poll e1]).kbd_state = STATE_RAK1 ∧
    (run s [.poll e1, .poll e2]).kbd_state = STATE_RAK2 ∧
    (run s [.poll e1, .poll e2, .poll e3]).kbd_state = STATE_IDLE ∧
    sent_bytes (run s [.poll e1]) = sent_bytes s ++ [0xff] ∧
    sent_bytes (run s [.poll e1, .poll e2]) = sent_bytes s ++ [0xff, 0xfe] ∧
    sent_bytes (run s [.poll e1, .poll e2, .poll e3]) = sent_bytes s ++ [0xff, 0xfe, 0xfd] ∧
    (run s [.poll e1, .poll e2, .poll e3]).send_log =
      s.send_log ++ [(STATE_RAK1, HRST), (STATE_RAK2, RAK1), (STATE_IDLE, RAK2)] ∧
    (queue_frames (run s [.poll e1]) = [] ∧
      queue_frames (run s [.poll e1, .poll e2]) = [] ∧
      queue_frames (run s [.poll e1, .poll e2, .poll e3]) = []) ∧
    ((run s [.poll e1, .poll e2, .poll e3]).tx_queue_rptr = 0 ∧
      (run s [.poll e1, .poll e2, .poll e3]).tx_queue_wptr = 0) ∧
    (run s [.poll e1, .poll e2, .poll e3]).tx_queue = s.tx_queue ∧
    (run s [.poll e1, .poll e2, .poll e3]).overflows = s.overflows := by
  have r1 : run s [.poll e1] = handle_rx e1 s HRST := poll_rx e1 s HRST hrx1 ht1
  obtain ⟨a1, a2, a3, a4, a5, a6, a7, a8⟩ := handle_rx_HRST e1 s
  have r2 : run s [.poll e1, .poll e2] = handle_rx e2 (handle_rx e1 s HRST) RAK1 := by
    show archie_handle_kbd e2 (run s [.poll e1]) = _
    rw [r1]
    exact poll_rx e2 _ RAK1 hrx2 (by rw [a4]; exact ht2)
  obtain ⟨b1, b2, b3, b4, b5, b6, b7, b8⟩ := handle_rx_RAK1 e2 (handle_rx e1 s HRST) a1
  have r3 : run s [.poll e1, .poll e2, .poll e3] =
      handle_rx e3 (handle_rx e2 (handle_rx e1 s HRST) RAK1) RAK2 := by
    show archie_handle_kbd e3 (run s [.poll e1, .poll e2]) = _
    rw [r2]
    exact poll_rx e3 _ RAK2 hrx3 (by rw [b4]; exact ht3)
  obtain ⟨c1, c2, c3, c4, c5, c6, c7, c8⟩ :=
    handle_rx_RAK2 e3 (handle_rx e2 (handle_rx e1 s HRST) RAK1) b1
  rw [r1, r2, r3]
  refine ⟨a1, b1, c1, ?_, ?_, ?_, ?_, ⟨?_, ?_, ?_⟩, ⟨?_, ?_⟩, ?_, ?_⟩
  · rw [sent_bytes_of_log _ _ _ a2]; rfl
  · rw [sent_bytes_of_log _ _ _ b2, sent_bytes_of_log _ _ _ a2]; simp
  · rw [sent_bytes_of_log _ _ _ c2, sent_bytes_of_log _ _ _ b2, sent_bytes_of_log _ _ _ a2]
    simp
  · rw [c3, b3, a3]; simp
  · exact queue_frames_of_empty _ (by rw [a6, a7])
  · exact queue_frames_of_empty _ (by rw [b6, b7, a6, a7])
  · exact queue_frames_of_empty _ (by rw [c6, c7, b6, b7, a6, a7])
  · rw [c6, b6, a6]
  · rw [c7, b7, a7]
  · rw [c5, b5, a5]
  · rw [c8, b8, a8]

/-- C11 at a sample input: the handshake started while `full_queue_state` waits for an
ack with 7 frames queued. -/
theorem reset_handshake_witness :
    sent_bytes (run full_queue_state
        [.poll (rx_env HRST), .poll (rx_env RAK1), .poll (rx_env RAK2)]) =
      sent_bytes full_queue_state ++ [0xff, 0xfe, 0xfd] ∧
    (run full_queue_state
        [.poll (rx_env HRST), .poll (rx_env RAK1), .poll (rx_env RAK2)]).kbd_state =
      STATE_IDLE :=
  ⟨(reset_handshake full_queue_state (rx_env HRST) (rx_env RAK1) (rx_env RAK2)
      rfl rfl rfl rfl rfl rfl).2.2.2.2.2.1,
    (reset_handshake full_queue_state (rx_env HRST) (rx_env RAK1) (rx_env RAK2)
      rfl rfl rfl rfl rfl rfl).2.2.1⟩

/-! ## C12: ack timeout -/

/-- A poll in a wait state whose timer has expired, with no byte arriving, only sets
`kbd_state` to `STATE_IDLE`: `archie_check_queue` is not called. -/
theorem ack_timeout_poll (env : Env) (s : State)
    (hwait : s.kbd_state = STATE_WAIT4ACK1 ∨ s.kbd_state = STATE_WAIT4ACK2)
    (ht : env.CheckTimer s.ack_timeout = true) (hrx : env.rx = none) :
    archie_handle_kbd env s = { s with kbd_state := STATE_IDLE } := by
  have h1 : ack_timeout_check env s = { s with kbd_state := STATE_IDLE } := by
    unfold ack_timeout_check
    rw [if_pos hwait, ht]
    rfl
  have h2 : reset_timeout_check env { s with kbd_state := STATE_IDLE } =
      { s with kbd_state := STATE_IDLE } := by
    unfold reset_timeout_check
    rw [if_neg (show ¬ STATE_IDLE ≤ STATE_RAK2 by decide)]
  unfold archie_handle_kbd
  dsimp only
  rw [h1, h2, hrx]

/-- C12, the code at the failing input: in `stalled_trace` the link waits for the second
ack with `0xc3` and `0xc4` queued; the poll in which the timer has expired leaves the link
idle, transmits nothing and leaves both frames in the queue. -/
theorem ack_timeout_no_drain :
    (run init_state (stalled_trace.take 7)).kbd_state = STATE_WAIT4ACK2 ∧
    queue_frames (run init_state (stalled_trace.take 7)) =
      [(STATE_WAIT4ACK1, 0xc3), (STATE_WAIT4ACK2, 0xc4)] ∧
    sent_bytes (run init_state (stalled_trace.take 7)) = [0xff, 0xfe, 0xfd, 0xc1, 0xc2] ∧
    (run init_state stalled_trace).kbd_state = STATE_IDLE ∧
    queue_frames (run init_state stalled_trace) =
      [(STATE_WAIT4ACK1, 0xc3), (STATE_WAIT4ACK2, 0xc4)] ∧
    sent_bytes (run init_state stalled_trace) = [0xff, 0xfe, 0xfd, 0xc1, 0xc2] := by
  decide

/-! ## C13: mode acknowledgment -/

theorem flag_bit (f i : Nat) : f &&& 2 ^ i ≠ 0 ↔ f.testBit i = true := by
  rw [Nat.and_two_pow]
  cases f.testBit i <;> simp

theorem bit0_iff (f : Nat) : f &&& 1 ≠ 0 ↔ f.testBit 0 = true := flag_bit f 0

theorem bit1_iff (f : Nat) : f &&& 2 ≠ 0 ↔ f.testBit 1 = true := flag_bit f 1

/-- The two bit operations on `flags`, bit by bit. -/
theorem flag_ops (f : Nat) :
    ((f ||| 1).testBit 0 = true ∧ (f ||| 1).testBit 1 = f.testBit 1) ∧
    ((f &&& 254).testBit 0 = false ∧ (f &&& 254).testBit 1 = f.testBit 1) ∧
    ((f ||| 2).testBit 0 = f.testBit 0 ∧ (f ||| 2).testBit 1 = true) ∧
    ((f &&& 253).testBit 0 = f.testBit 0 ∧ (f &&& 253).testBit 1 = false) := by
  have c10 : (1 : Nat).testBit 0 = true := by decide
  have c11 : (1 : Nat).testBit 1 = false := by decide
  have c20 : (2 : Nat).testBit 0 = false := by decide
  have c21 : (2 : Nat).testBit 1 = true := by decide
  have c40 : (254 : Nat).testBit 0 = false := by decide
  have c41 : (254 : Nat).testBit 1 = true := by decide
  have c30 : (253 : Nat).testBit 0 = true := by decide
  have c31 : (253 : Nat).testBit 1 = false := by decide
  simp only [Nat.testBit_or, Nat.testBit_and, c10, c11, c20, c21, c40, c41, c30, c31,
    Bool.or_true, Bool.or_false, Bool.and_true, Bool.and_false, and_self]

theorem cond_set_scan (c : Prop) [Decidable c] (f : Nat) :
    ((if c ∧ f &&& FLAG_SCAN_ENABLED = 0 then f ||| FLAG_SCAN_ENABLED else f).testBit 0 = true ↔
      c ∨ f.testBit 0 = true) ∧
    (if c ∧ f &&& FLAG_SCAN_ENABLED = 0 then f ||| FLAG_SCAN_ENABLED else f).testBit 1 =
      f.testBit 1 := by
  have hb := bit0_iff f
  obtain ⟨⟨s0, s1⟩, _, _, _⟩ := flag_ops f
  by_cases h : c ∧ f &&& FLAG_SCAN_ENABLED = 0
  · rw [if_pos h]
    exact ⟨⟨fun _ => Or.inl h.1, fun _ => s0⟩, s1⟩
  · rw [if_neg h]
    refine ⟨⟨Or.inr, fun hor => ?_⟩, rfl⟩
    rcases hor with hc | hf
    · exact hb.mp fun h0 => h ⟨hc, h0⟩
    · exact hf

theorem cond_clear_scan (c : Prop) [Decidable c] (f : Nat) :
    ((if c ∧ f &&& FLAG_SCAN_ENABLED ≠ 0 then f &&& (0xff ^^^ FLAG_SCAN_ENABLED)
        else f).testBit 0 = true ↔ ¬c ∧ f.testBit 0 = true) ∧
    (if c ∧ f &&& FLAG_SCAN_ENABLED ≠ 0 then f &&& (0xff ^^^ FLAG_SCAN_ENABLED)
        else f).testBit 1 = f.testBit 1 := by
  have hb := bit0_iff f
  obtain ⟨_, ⟨s0, s1⟩, _, _⟩ := flag_ops f
  by_cases h : c ∧ f &&& FLAG_SCAN_ENABLED ≠ 0
  · rw [if_pos h]
    refine ⟨⟨fun ht => ?_, fun hn => absurd h.1 hn.1⟩, s1⟩
    have s0' : (f &&& (0xff ^^^ FLAG_SCAN_ENABLED)).testBit 0 = false := s0
    rw [s0'] at ht
    exact absurd ht (by decide)
  · rw [if_neg h]
    refine ⟨⟨fun ht => ⟨fun hc => h ⟨hc, hb.mpr ht⟩, ht⟩, fun hn => hn.2⟩, rfl⟩

theorem cond_set_mouse (c : Prop) [Decidable c] (f : Nat) :
    ((if c ∧ f &&& FLAG_MOUSE_ENABLED = 0 then f ||| FLAG_MOUSE_ENABLED else f).testBit 1 = true ↔
      c ∨ f.testBit 1 = true) ∧
    (if c ∧ f &&& FLAG_MOUSE_ENABLED = 0 then f ||| FLAG_MOUSE_ENABLED else f).testBit 0 =
      f.testBit 0 := by
  have hb := bit1_iff f
  obtain ⟨_, _, ⟨s0, s1⟩, _⟩ := flag_ops f
  by_cases h : c ∧ f &&& FLAG_MOUSE_ENABLED = 0
  · rw [if_pos h]
    exact ⟨⟨fun _ => Or.inl h.1, fun _ => s1⟩, s0⟩
  · rw [if_neg h]
    refine ⟨⟨Or.inr, fun hor => ?_⟩, rfl⟩
    rcases hor with hc | hf
    · exact hb.mp fun h0 => h ⟨hc, h0⟩
    · exact hf

theorem cond_clear_mouse (c : Prop) [Decidable c] (f : Nat) :
    ((if c ∧ f &&& FLAG_MOUSE_ENABLED ≠ 0 then f &&& (0xff ^^^ FLAG_MOUSE_ENABLED)
        else f).testBit 1 = true ↔ ¬c ∧ f.testBit 1 = true) ∧
    (if c ∧ f &&& FLAG_MOUSE_ENABLED ≠ 0 then f &&& (0xff ^^^ FLAG_MOUSE_ENABLED)
        else f).testBit 0 = f.testBit 0 := by
  have hb := bit1_iff f
  obtain ⟨_, _, _, ⟨s0, s1⟩⟩ := flag_ops f
  by_cases h : c ∧ f &&& FLAG_MOUSE_ENABLED ≠ 0
  · rw [if_pos h]
    refine ⟨⟨fun ht => ?_, fun hn => absurd h.1 hn.1⟩, s0⟩
    have s1' : (f &&& (0xff ^^^ FLAG_MOUSE_ENABLED)).testBit 1 = false := s1
    rw [s1'] at ht
    exact absurd ht (by decide)
  · rw [if_neg h]
    refine ⟨⟨fun ht => ⟨fun hc => h ⟨hc, hb.mpr ht⟩, ht⟩, fun hn => hn.2⟩, rfl⟩

/-- After the mode-ack statements, bit 0 of `flags` is bit 0 of the byte and bit 1 of
`flags` is bit 1 of the byte, whatever `flags` was. -/
theorem mode_ack_flags_bits (flags d : Nat)
    (hd : d = NACK ∨ d = SACK ∨ d = MACK ∨ d = SMAK) :
    (mode_ack_flags flags d &&& FLAG_SCAN_ENABLED ≠ 0 ↔ d &&& 1 ≠ 0) ∧
    (mode_ack_flags flags d &&& FLAG_MOUSE_ENABLED ≠ 0 ↔ d &&& 2 ≠ 0) := by
  obtain ⟨r1, hr1⟩ : ∃ r1, r1 = if (d = SACK ∨ d = SMAK) ∧ flags &&& FLAG_SCAN_ENABLED = 0
      then flags ||| FLAG_SCAN_ENABLED else flags := ⟨_, rfl⟩
  obtain ⟨r2, hr2⟩ : ∃ r2, r2 = if (d = NACK ∨ d = MACK) ∧ r1 &&& FLAG_SCAN_ENABLED ≠ 0
      then r1 &&& (0xff ^^^ FLAG_SCAN_ENABLED) else r1 := ⟨_, rfl⟩
  obtain ⟨r3, hr3⟩ : ∃ r3, r3 = if (d = MACK ∨ d = SMAK) ∧ r2 &&& FLAG_MOUSE_ENABLED = 0
      then r2 ||| FLAG_MOUSE_ENABLED else r2 := ⟨_, rfl⟩
  obtain ⟨r4, hr4⟩ : ∃ r4, r4 = if (d = NACK ∨ d = SACK) ∧ r3 &&& FLAG_MOUSE_ENABLED ≠ 0
      then r3 &&& (0xff ^^^ FLAG_MOUSE_ENABLED) else r3 := ⟨_, rfl⟩
  have hm : mode_ack_flags flags d = r4 := by
    rw [hr4, hr3, hr2, hr1]
    rfl
  obtain ⟨e1, e1'⟩ := cond_set_scan (d = SACK ∨ d = SMAK) flags
  obtain ⟨e2, e2'⟩ := cond_clear_scan (d = NACK ∨ d = MACK) r1
  obtain ⟨e3, e3'⟩ := cond_set_mouse (d = MACK ∨ d = SMAK) r2
  obtain ⟨e4, e4'⟩ := cond_clear_mouse (d = NACK ∨ d = SACK) r3
  rw [← hr1] at e1 e1'
  rw [← hr2] at e2 e2'
  rw [← hr3] at e3 e3'
  rw [← hr4] at e4 e4'
  rw [hm]
  have g0 : FLAG_SCAN_ENABLED = 2 ^ 0 := rfl
  have g1 : FLAG_MOUSE_ENABLED = 2 ^ 1 := rfl
  rw [g0, g1, flag_bit, flag_bit, e4', e3', e2, e1, e4, e3, e2', e1']
  rcases hd with h | h | h | h <;> subst h <;> simp <;> try decide

theorem handle_rx_mode_ack (env : Env) (s : State) (d : Nat)
    (hd : d = NACK ∨ d = SACK ∨ d = MACK ∨ d = SMAK) :
    handle_rx env s d =
      archie_check_queue env
        { s with flags := mode_ack_flags s.flags d, kbd_state := STATE_IDLE } := by
  have h1 : d ≠ HRST := by rcases hd with h | h | h | h <;> rw [h] <;> decide
  have h2 : d ≠ RAK1 := by rcases hd with h | h | h | h <;> rw [h] <;> decide
  have h3 : d ≠ RAK2 := by rcases hd with h | h | h | h <;> rw [h] <;> decide
  have h4 : d ≠ RQID := by rcases hd with h | h | h | h <;> rw [h] <;> decide
  have h5 : d ≠ BACK := by rcases hd with h | h | h | h <;> rw [h] <;> decide
  unfold handle_rx
  rw [if_neg h1, if_neg h2, if_neg h3, if_neg h4, if_neg h5, if_pos hd]

theorem check_queue_flags (env : Env) (s : State) :
    (archie_check_queue env s).flags = s.flags := by
  unfold archie_check_queue
  split <;> rfl

theorem check_queue_head (env : Env) (s : State) (hwf : QueueWF s)
    (h : queue_count s ≠ 0) :
    ∃ f rest, queue_frames s = f :: rest ∧
      queue_frames (archie_check_queue env s) = rest ∧
      sent_frames (archie_check_queue env s) = sent_frames s ++ [f] ∧
      sent_bytes (archie_check_queue env s) = sent_bytes s ++ [f.2] ∧
      (archie_check_queue env s).kbd_state = f.1 := by
  have hn : s.tx_queue_rptr ≠ s.tx_queue_wptr := fun hf => h ((queue_empty_iff s hwf).mp hf)
  refine ⟨s.tx_queue s.tx_queue_rptr, _, check_queue_frames env s hwf hn, rfl, ?_, ?_,
    (check_queue_sent env s hn).2⟩
  · simp [sent_frames, (check_queue_sent env s hn).1, TxEvent.frame]
  · simp [sent_bytes, (check_queue_sent env s hn).1]

/-- C13: a poll that receives a mode-ack byte `d` (`NACK`, `SACK`, `MACK` or `SMAK`) with
the timer not expired, in `STATE_WAIT4ACK2` as in any other link state, leaves key
scanning enabled exactly if bit 0 of `d` is set and the mouse enabled exactly if bit 1 of
`d` is set; if the queue was empty the link is idle and nothing is transmitted, otherwise
the oldest frame is transmitted and removed and the link is in its target state. -/
theorem mode_ack_received (env : Env) (s : State) (d : Nat)
    (hd : d = NACK ∨ d = SACK ∨ d = MACK ∨ d = SMAK) (hrx : env.rx = some d)
    (ht : env.CheckTimer s.ack_timeout = false) (hwf : QueueWF s) :
    ((archie_handle_kbd env s).flags &&& FLAG_SCAN_ENABLED ≠ 0 ↔ d &&& 1 ≠ 0) ∧
    ((archie_handle_kbd env s).flags &&& FLAG_MOUSE_ENABLED ≠ 0 ↔ d &&& 2 ≠ 0) ∧
    (queue_count s = 0 →
      (archie_handle_kbd env s).kbd_state = STATE_IDLE ∧
      (archie_handle_kbd env s).tx_log = s.tx_log ∧
      queue_frames (archie_handle_kbd env s) = []) ∧
    (queue_count s ≠ 0 →
      ∃ f rest, queue_frames s = f :: rest ∧
        queue_frames (archie_handle_kbd env s) = rest ∧
        sent_frames (archie_handle_kbd env s) = sent_frames s ++ [f] ∧
        sent_bytes (archie_handle_kbd env s) = sent_bytes s ++ [f.2] ∧
        (archie_handle_kbd env s).kbd_state = f.1) := by
  rw [poll_rx env s d hrx ht, handle_rx_mode_ack env s d hd]
  obtain ⟨f0, f1⟩ := mode_ack_flags_bits s.flags d hd
  have hwf' : QueueWF { s with flags := mode_ack_flags s.flags d, kbd_state := STATE_IDLE } :=
    hwf
  refine ⟨?_, ?_, ?_, ?_⟩
  · rw [check_queue_flags]
    exact f0
  · rw [check_queue_flags]
    exact f1
  · intro h0
    have he : s.tx_queue_rptr = s.tx_queue_wptr := (queue_empty_iff s hwf).mpr h0
    rw [check_queue_empty env
      { s with flags := mode_ack_flags s.flags d, kbd_state := STATE_IDLE } he]
    exact ⟨rfl, rfl, queue_frames_of_empty s he⟩
  · intro h0
    exact check_queue_head env
      { s with flags := mode_ack_flags s.flags d, kbd_state := STATE_IDLE } hwf' h0

/-- C13 at a sample input: `MACK` received while `second_ack_state` waits for the second
ack with one frame queued. -/
theorem mode_ack_received_witness :
    ¬ (archie_handle_kbd (rx_env MACK) second_ack_state).flags &&& FLAG_SCAN_ENABLED ≠ 0 ∧
    (archie_handle_kbd (rx_env MACK) second_ack_state).flags &&& FLAG_MOUSE_ENABLED ≠ 0 ∧
    ∃ f rest, queue_frames second_ack_state = f :: rest ∧
      queue_frames (archie_handle_kbd (rx_env MACK) second_ack_state) = rest ∧
      sent_frames (archie_handle_kbd (rx_env MACK) second_ack_state) =
        sent_frames second_ack_state ++ [f] ∧
      sent_bytes (archie_handle_kbd (rx_env MACK) second_ack_state) =
        sent_bytes second_ack_state ++ [f.2] ∧
      (archie_handle_kbd (rx_env MACK) second_ack_state).kbd_state = f.1 :=
  ⟨fun h => absurd ((mode_ack_received (rx_env MACK) second_ack_state MACK (by decide) rfl rfl
      (by decide)).1.mp h) (by decide),
    (mode_ack_received (rx_env MACK) second_ack_state MACK (by decide) rfl rfl (by decide)).2.1.mpr
      (by decide),
    (mode_ack_received (rx_env MACK) second_ack_state MACK (by decide) rfl rfl (by decide)).2.2.2
      (by decide)⟩

/-! ## C14 and C15: unexpected bytes -/

/-- An acknowledgment byte that the current state does not expect only sets
`kbd_state` to `STATE_HRST`. -/
theorem handle_rx_unexpected_ack (env : Env) (s : State) (d : Nat)
    (h : (d = BACK ∧ s.kbd_state ≠ STATE_WAIT4ACK1) ∨ (d = RAK1 ∧ s.kbd_state ≠ STATE_RAK1) ∨
      (d = RAK2 ∧ s.kbd_state ≠ STATE_RAK2)) :
    handle_rx env s d = { s with kbd_state := STATE_HRST } := by
  unfold handle_rx
  rcases h with ⟨hd, hs⟩ | ⟨hd, hs⟩ | ⟨hd, hs⟩ <;> subst hd
  · rw [if_neg (by decide), if_neg (by decide), if_neg (by decide), if_neg (by decide),
      if_pos rfl, if_pos hs]
  · rw [if_neg (by decide), if_pos rfl, if_neg hs]
  · rw [if_neg (by decide), if_neg (by decide), if_pos rfl, if_neg hs]

/-- A byte that has no case in the `switch` changes nothing. -/
theorem handle_rx_no_case (env : Env) (s : State) (d : Nat)
    (h : d ≠ HRST ∧ d ≠ RAK1 ∧ d ≠ RAK2 ∧ d ≠ RQID ∧ d ≠ BACK ∧
      d ≠ NACK ∧ d ≠ SACK ∧ d ≠ MACK ∧ d ≠ SMAK) :
    handle_rx env s d = s := by
  obtain ⟨h1, h2, h3, h4, h5, h6, h7, h8, h9⟩ := h
  unfold handle_rx
  rw [if_neg h1, if_neg h2, if_neg h3, if_neg h4, if_neg h5, if_neg (by tauto)]

/-- C14, refuted: after the first handshake step the link is in `STATE_RAK1`; a poll that
receives the byte `0x00`, which is neither `RAK1` nor `HRST`, leaves it in `STATE_RAK1`,
not in `STATE_HRST`. -/
theorem resync_counterexample :
    (run init_state [.poll (rx_env HRST)]).kbd_state = STATE_RAK1 ∧
    (0x00 ≠ RAK1 ∧ 0x00 ≠ HRST) ∧
    (run init_state [.poll (rx_env HRST), .poll (rx_env 0x00)]).kbd_state = STATE_RAK1 ∧
    (run init_state [.poll (rx_env HRST), .poll (rx_env 0x00)]).kbd_state ≠ STATE_HRST := by
  decide

/-- C14, amended: in `STATE_RAK1`, `STATE_RAK2` and `STATE_WAIT4ACK1` a poll (timer not
expired) that receives one of the acknowledgment bytes `RAK1`, `RAK2`, `BACK` other than
the one the state expects leaves the link in `STATE_HRST`; a byte that has no case in the
`switch` of `archie_handle_kbd` leaves the whole state, `kbd_state` included, as it
was. -/
theorem resync_amended (env : Env) (s : State) (d : Nat) (hrx : env.rx = some d)
    (ht : env.CheckTimer s.ack_timeout = false) :
    ((s.kbd_state = STATE_RAK1 ∧ (d = RAK2 ∨ d = BACK)) ∨
      (s.kbd_state = STATE_RAK2 ∧ (d = RAK1 ∨ d = BACK)) ∨
      (s.kbd_state = STATE_WAIT4ACK1 ∧ (d = RAK1 ∨ d = RAK2)) →
      (archie_handle_kbd env s).kbd_state = STATE_HRST) ∧
    (d ≠ HRST ∧ d ≠ RAK1 ∧ d ≠ RAK2 ∧ d ≠ RQID ∧ d ≠ BACK ∧
      d ≠ NACK ∧ d ≠ SACK ∧ d ≠ MACK ∧ d ≠ SMAK →
      archie_handle_kbd env s = s) := by
  rw [poll_rx env s d hrx ht]
  constructor
  · intro h
    rw [handle_rx_unexpected_ack env s d]
    rcases h with ⟨hs, hd | hd⟩ | ⟨hs, hd | hd⟩ | ⟨hs, hd | hd⟩
    · exact Or.inr (Or.inr ⟨hd, by rw [hs]; decide⟩)
    · exact Or.inl ⟨hd, by rw [hs]; decide⟩
    · exact Or.inr (Or.inl ⟨hd, by rw [hs]; decide⟩)
    · exact Or.inl ⟨hd, by rw [hs]; decide⟩
    · exact Or.inr (Or.inl ⟨hd, by rw [hs]; decide⟩)
    · exact Or.inr (Or.inr ⟨hd, by rw [hs]; decide⟩)
  · exact handle_rx_no_case env s d

/-- C14, amended, at a sample input: `BACK` received in `STATE_RAK1`. -/
theorem resync_amended_witness :
    (run init_state [.poll (rx_env HRST)]).kbd_state = STATE_RAK1 ∧
    (archie_handle_kbd (rx_env BACK) (run init_state [.poll (rx_env HRST)])).kbd_state =
      STATE_HRST :=
  ⟨by decide,
    (resync_amended (rx_env BACK) (run init_state [.poll (rx_env HRST)]) BACK rfl rfl).1
      (Or.inl ⟨by decide, Or.inr rfl⟩)⟩

/-- C15, refuted: in `violation_trace` the byte `RAK1` arrives in `STATE_WAIT4ACK1`;
afterwards the link is in `STATE_HRST`, but the queue still holds a frame, both mode flags
are still set and the accumulator still holds `5`. -/
theorem violation_counterexample :
    (run init_state (violation_trace.take 6)).kbd_state = STATE_WAIT4ACK1 ∧
    (run init_state violation_trace).kbd_state = STATE_HRST ∧
    queue_frames (run init_state violation_trace) = [(STATE_WAIT4ACK2, 0)] ∧
    (run init_state violation_trace).tx_queue_rptr ≠
      (run init_state violation_trace).tx_queue_wptr ∧
    (run init_state violation_trace).flags &&& FLAG_SCAN_ENABLED ≠ 0 ∧
    (run init_state violation_trace).flags &&& FLAG_MOUSE_ENABLED ≠ 0 ∧
    (run init_state violation_trace).mouse_x = 5 := by
  decide

/-- C15, amended: a poll (timer not expired) that receives `BACK` outside
`STATE_WAIT4ACK1`, `RAK1` outside `STATE_RAK1` or `RAK2` outside `STATE_RAK2` sets
`kbd_state` to `STATE_HRST` and changes nothing else: queue, mode flags and accumulator
keep their values.  They are cleared when the byte `HRST` is received: then the queue is
empty, both flags are clear, the accumulator is `(0, 0)` and, `HRST` having been
transmitted, the link is in `STATE_RAK1`. -/
theorem violation_amended (env : Env) (s : State) (d : Nat) (hrx : env.rx = some d)
    (ht : env.CheckTimer s.ack_timeout = false) :
    ((d = BACK ∧ s.kbd_state ≠ STATE_WAIT4ACK1) ∨ (d = RAK1 ∧ s.kbd_state ≠ STATE_RAK1) ∨
      (d = RAK2 ∧ s.kbd_state ≠ STATE_RAK2) →
      archie_handle_kbd env s = { s with kbd_state := STATE_HRST }) ∧
    (d = HRST →
      (archie_handle_kbd env s).kbd_state = STATE_RAK1 ∧
      queue_frames (archie_handle_kbd env s) = [] ∧
      (archie_handle_kbd env s).flags = 0 ∧
      (archie_handle_kbd env s).mouse_x = 0 ∧ (archie_handle_kbd env s).mouse_y = 0) := by
  rw [poll_rx env s d hrx ht]
  constructor
  · exact handle_rx_unexpected_ack env s d
  · intro hd
    subst hd
    obtain ⟨a1, _, _, _, _, a6, a7, _⟩ := handle_rx_HRST env s
    refine ⟨a1, queue_frames_of_empty _ (by rw [a6, a7]), ?_, ?_, ?_⟩
    · unfold handle_rx
      rw [if_pos rfl]
      exact (send_flags env (archie_kbd_reset s) STATE_RAK1 HRST).1
    · unfold handle_rx
      rw [if_pos rfl]
      exact (send_mouse env (archie_kbd_reset s) STATE_RAK1 HRST).1
    · unfold handle_rx
      rw [if_pos rfl]
      exact (send_mouse env (archie_kbd_reset s) STATE_RAK1 HRST).2

/-- C15, amended, at a sample input: `BACK` received while `second_ack_state` waits for
the second ack. -/
theorem violation_amended_witness :
    second_ack_state.kbd_state ≠ STATE_WAIT4ACK1 ∧
    archie_handle_kbd (rx_env BACK) second_ack_state =
      { second_ack_state with kbd_state := STATE_HRST } :=
  ⟨by decide,
    (violation_amended (rx_env BACK) second_ack_state BACK rfl rfl).1
      (Or.inl ⟨rfl, by decide⟩)⟩

/-! ## C16: button edges -/

theorem send_all_append (env : Env) (s : State) (fs gs : List (Nat × Nat)) :
    send_all env s (fs ++ gs) = send_all env (send_all env s fs) gs := by
  simp [send_all, List.foldl_append]

theorem send_all_fields (env : Env) (fs : List (Nat × Nat)) (s : State) :
    (send_all env s fs).send_log = s.send_log ++ fs ∧
    (send_all env s fs).flags = s.flags ∧
    (send_all env s fs).buts = s.buts ∧
    (send_all env s fs).mouse_x = s.mouse_x ∧
    (send_all env s fs).mouse_y = s.mouse_y := by
  induction fs generalizing s with
  | nil => simp [send_all]
  | cons f rest ih =>
    obtain ⟨i1, i2, i3, i4, i5⟩ := ih (archie_kbd_send env s f.1 f.2)
    have hs : send_all env s (f :: rest) = send_all env (archie_kbd_send env s f.1 f.2) rest :=
      rfl
    rw [hs, i1, i2, i3, i4, i5, send_log_send, (send_flags env s f.1 f.2).1,
      (send_flags env s f.1 f.2).2, (send_mouse env s f.1 f.2).1, (send_mouse env s f.1 f.2).2]
    simp

theorem mask_eq_iff (b buts k : Nat) :
    b &&& (1 <<< k) = buts &&& (1 <<< k) ↔ b.testBit k = buts.testBit k := by
  rw [Nat.one_shiftLeft, Nat.and_two_pow, Nat.and_two_pow]
  have hp : 0 < 2 ^ k := Nat.two_pow_pos k
  cases b.testBit k <;> cases buts.testBit k
  · simp
  · simp
    omega
  · simp
  · simp

theorem mask_ne_zero_iff (b k : Nat) : b &&& (1 <<< k) ≠ 0 ↔ b.testBit k = true := by
  rw [Nat.one_shiftLeft]
  exact flag_bit b k

/-- One pass of the button loop hands exactly the frame pair of the specification to
`archie_kbd_send`. -/
theorem mouse_button_eq (env : Env) (b : Nat) (st : State) (k : Nat) (hk : k < 3) :
    mouse_button env b st k = send_all env st (button_pair b st.buts k) := by
  have hremap : remap k = [0, 2, 1].getD k 0 := by
    rcases k with _ | _ | _ | k
    · rfl
    · rfl
    · rfl
    · omega
  unfold mouse_button button_pair
  dsimp only
  by_cases h : b.testBit k = st.buts.testBit k
  · rw [if_neg (not_not.mpr ((mask_eq_iff b st.buts k).mpr h)), if_pos h]
    rfl
  · rw [if_pos (fun he => h ((mask_eq_iff b st.buts k).mp he)), if_neg h, hremap]
    by_cases hb : b.testBit k = true
    · rw [if_pos ((mask_ne_zero_iff b k).mpr hb), if_pos hb]
      rfl
    · rw [if_neg (fun hm => hb ((mask_ne_zero_iff b k).mp hm)), if_neg hb]
      rfl

theorem send_all_buts (env : Env) (s : State) (fs : List (Nat × Nat)) :
    (send_all env s fs).buts = s.buts := (send_all_fields env fs s).2.2.1

/-- With key scanning enabled the button block hands exactly `button_frames` to
`archie_kbd_send` and then stores the sample. -/
theorem mouse_buttons_eq (env : Env) (s : State) (b : Nat)
    (hscan : s.flags &&& FLAG_SCAN_ENABLED ≠ 0) :
    mouse_buttons env s b = { send_all env s (button_frames b s.buts) with buts := b } := by
  unfold mouse_buttons
  rw [if_pos hscan]
  dsimp only
  have h : [0, 1, 2].foldl (mouse_button env b) s = send_all env s (button_frames b s.buts) := by
    simp only [List.foldl]
    rw [mouse_button_eq env b s 0 (by decide),
      mouse_button_eq env b _ 1 (by decide), mouse_button_eq env b _ 2 (by decide),
      send_all_buts, send_all_buts, send_all_buts]
    unfold button_frames
    rw [send_all_append, send_all_append]
  rw [h]

theorem mouse_buttons_off (env : Env) (s : State) (b : Nat)
    (hscan : s.flags &&& FLAG_SCAN_ENABLED = 0) : mouse_buttons env s b = s := by
  unfold mouse_buttons
  rw [if_neg (not_not.mpr hscan)]

theorem mouse_flush_flags (env : Env) (s : State) :
    (mouse_flush env s).flags = s.flags ∧ (mouse_flush env s).buts = s.buts := by
  unfold mouse_flush
  split
  · split
    · dsimp only
      rw [(send_flags env _ STATE_WAIT4ACK2 _).1, (send_flags env _ STATE_WAIT4ACK2 _).2,
        (send_flags env s STATE_WAIT4ACK1 _).1, (send_flags env s STATE_WAIT4ACK1 _).2]
      exact ⟨rfl, rfl⟩
    · exact ⟨rfl, rfl⟩
  · exact ⟨rfl, rfl⟩

theorem archie_mouse_past_handshake (env : Env) (s : State) (b : Nat) (x y : Int)
    (hstate : STATE_RAK2 < s.kbd_state) :
    archie_mouse env s b x y = mouse_buttons env (mouse_flush env (mouse_accumulate s x y)) b := by
  have hns : ¬ (mouse_accumulate s x y).kbd_state ≤ STATE_RAK2 := by
    show ¬ s.kbd_state ≤ STATE_RAK2
    omega
  unfold archie_mouse
  dsimp only
  rw [if_neg hns]

theorem button_pair_same (b buts k : Nat) (hk : k < 3) (h : b % 8 = buts % 8) :
    button_pair b buts k = [] := by
  have hb := Nat.testBit_mod_two_pow b 3 k
  have hc := Nat.testBit_mod_two_pow buts 3 k
  have hlt : decide (k < 3) = true := by simpa using hk
  rw [hlt, Bool.true_and] at hb hc
  norm_num at hb hc
  unfold button_pair
  rw [if_pos (by rw [← hb, ← hc, h])]

/-- C16: with key scanning enabled and the link past the handshake, `archie_mouse` hands
to `archie_kbd_send`, after the motion block, exactly the frames `button_frames b buts`:
for the buttons 0, 1, 2 in ascending order whose bit differs between `b` and `buts`, the
pair `(STATE_WAIT4ACK1, m | 0x07)`, `(STATE_WAIT4ACK2, m | remap[s])` with `m = 0xc0` if
the bit is set in `b` and `0xd0` otherwise.  No frame is emitted for an unchanged bit,
none at all when the low three bits agree, and afterwards `buts = b`. -/
theorem button_edges (env : Env) (s : State) (b : Nat) (x y : Int)
    (hscan : s.flags &&& FLAG_SCAN_ENABLED ≠ 0) (hstate : STATE_RAK2 < s.kbd_state) :
    archie_mouse env s b x y =
      { send_all env (mouse_flush env (mouse_accumulate s x y)) (button_frames b s.buts) with
        buts := b } ∧
    (archie_mouse env s b x y).send_log =
      (mouse_flush env (mouse_accumulate s x y)).send_log ++ button_frames b s.buts ∧
    (archie_mouse env s b x y).buts = b ∧
    (∀ k < 3, b.testBit k = s.buts.testBit k → button_pair b s.buts k = []) ∧
    (b % 8 = s.buts % 8 → button_frames b s.buts = []) := by
  have hf := mouse_flush_flags env (mouse_accumulate s x y)
  have hscan' : (mouse_flush env (mouse_accumulate s x y)).flags &&& FLAG_SCAN_ENABLED ≠ 0 := by
    rw [hf.1]
    exact hscan
  have hbuts : (mouse_flush env (mouse_accumulate s x y)).buts = s.buts := hf.2
  have he := mouse_buttons_eq env (mouse_flush env (mouse_accumulate s x y)) b hscan'
  rw [hbuts] at he
  have hm := archie_mouse_past_handshake env s b x y hstate
  rw [he] at hm
  refine ⟨hm, ?_, ?_, ?_, ?_⟩
  · rw [hm]
    exact (send_all_fields env _ _).1
  · rw [hm]
  · intro k _ h
    unfold button_pair
    rw [if_pos h]
  · intro h
    unfold button_frames
    rw [button_pair_same b s.buts 0 (by decide) h, button_pair_same b s.buts 1 (by decide) h,
      button_pair_same b s.buts 2 (by decide) h]
    rfl

/-- C16 at a sample input: on `one_frame_state` (no button stored) the sample `b = 5`
reports the buttons 0 and 2 as pressed. -/
theorem button_edges_witness :
    one_frame_state.flags &&& FLAG_SCAN_ENABLED ≠ 0 ∧
    STATE_RAK2 < one_frame_state.kbd_state ∧
    (archie_mouse quiet_env one_frame_state 5 0 0).send_log =
      (mouse_flush quiet_env (mouse_accumulate one_frame_state 0 0)).send_log ++
        button_frames 5 one_frame_state.buts ∧
    button_frames 5 one_frame_state.buts =
      [(STATE_WAIT4ACK1, 0xc7), (STATE_WAIT4ACK2, 0xc0),
       (STATE_WAIT4ACK1, 0xc7), (STATE_WAIT4ACK2, 0xc1)] :=
  ⟨by decide, by decide,
    (button_edges quiet_env one_frame_state 5 0 0 (by decide) (by decide)).2.1,
    by decide⟩

/-! ## C17, C18, C19: what one pointer event hands over -/

theorem low7_lt (v : Int) : low7 v < 128 := by
  unfold low7
  omega

theorem button_pair_frames (b buts k : Nat) (hk : k < 3) :
    (button_pair b buts k).length ≤ 2 ∧
    ∀ f ∈ button_pair b buts k,
      0xc0 ≤ f.2 ∧ (f.1 = STATE_WAIT4ACK1 ∨ f.1 = STATE_WAIT4ACK2) := by
  unfold button_pair
  by_cases h : b.testBit k = buts.testBit k
  · rw [if_pos h]
    simp
  · rw [if_neg h]
    refine ⟨by simp, ?_⟩
    intro f hf
    rcases k with _ | _ | _ | k
    · cases hb : b.testBit 0 <;> simp [hb] at hf <;> rcases hf with hf | hf <;> subst hf <;>
        decide
    · cases hb : b.testBit 1 <;> simp [hb] at hf <;> rcases hf with hf | hf <;> subst hf <;>
        decide
    · cases hb : b.testBit 2 <;> simp [hb] at hf <;> rcases hf with hf | hf <;> subst hf <;>
        decide
    · omega

theorem button_frames_frames (b buts : Nat) :
    (button_frames b buts).length ≤ 6 ∧
    ∀ f ∈ button_frames b buts,
      0xc0 ≤ f.2 ∧ (f.1 = STATE_WAIT4ACK1 ∨ f.1 = STATE_WAIT4ACK2) := by
  obtain ⟨l0, m0⟩ := button_pair_frames b buts 0 (by decide)
  obtain ⟨l1, m1⟩ := button_pair_frames b buts 1 (by decide)
  obtain ⟨l2, m2⟩ := button_pair_frames b buts 2 (by decide)
  unfold button_frames
  refine ⟨by simp only [List.length_append]; omega, ?_⟩
  intro f hf
  rcases List.mem_append.mp hf with hf | hf
  · rcases List.mem_append.mp hf with hf | hf
    · exact m0 f hf
    · exact m1 f hf
  · exact m2 f hf

theorem queue_frames_length (s : State) : (queue_frames s).length = queue_count s := by
  simp [queue_frames]

/-- Frames sent while the link waits for an ack, with room for all of them: none is
transmitted, none dropped, all are queued in order. -/
theorem send_all_queued (env : Env) (fs : List (Nat × Nat)) (s : State) (hwf : QueueWF s)
    (hwait : s.kbd_state = STATE_WAIT4ACK1 ∨ s.kbd_state = STATE_WAIT4ACK2)
    (hroom : queue_count s + fs.length ≤ 7) :
    (send_all env s fs).kbd_state = s.kbd_state ∧
    (send_all env s fs).tx_log = s.tx_log ∧
    (send_all env s fs).overflows = s.overflows ∧
    QueueWF (send_all env s fs) ∧
    queue_frames (send_all env s fs) = queue_frames s ++ fs := by
  induction fs generalizing s with
  | nil => simp [send_all, hwf]
  | cons f rest ih =>
    have hlen : (f :: rest).length = rest.length + 1 := rfl
    obtain ⟨e1, e2, _, _, e5, _⟩ := send_queued_effect env s f.1 f.2 hwf hwait
    obtain ⟨e5a, e5b⟩ := e5 (by omega)
    have hwf1 := send_wf env s f.1 f.2 hwf
    have hc1 : queue_count (archie_kbd_send env s f.1 f.2) = queue_count s + 1 := by
      rw [← queue_frames_length, e5a, List.length_append, queue_frames_length]
      rfl
    obtain ⟨i1, i2, i3, i4, i5⟩ := ih (archie_kbd_send env s f.1 f.2) hwf1
      (by rw [e2]; exact hwait) (by omega)
    have hs : send_all env s (f :: rest) = send_all env (archie_kbd_send env s f.1 f.2) rest :=
      rfl
    rw [hs]
    refine ⟨by rw [i1, e2], by rw [i2, e1], by rw [i3, e5b], i4, ?_⟩
    rw [i5, e5a]
    simp

/-- Frames sent while the link waits for an ack, whatever the room: none is transmitted
and what is added to the queue is taken, in order, from the frames sent. -/
theorem send_all_busy (env : Env) (fs : List (Nat × Nat)) (s : State) (hwf : QueueWF s)
    (hwait : s.kbd_state = STATE_WAIT4ACK1 ∨ s.kbd_state = STATE_WAIT4ACK2) :
    (send_all env s fs).kbd_state = s.kbd_state ∧
    (send_all env s fs).tx_log = s.tx_log ∧
    ∃ q, q.Sublist fs ∧ queue_frames (send_all env s fs) = queue_frames s ++ q := by
  induction fs generalizing s with
  | nil => exact ⟨rfl, rfl, [], List.Sublist.refl _, by simp [send_all]⟩
  | cons f rest ih =>
    obtain ⟨e1, e2, _, _, e5, e6⟩ := send_queued_effect env s f.1 f.2 hwf hwait
    have hwf1 := send_wf env s f.1 f.2 hwf
    obtain ⟨i1, i2, q, hq, i3⟩ := ih (archie_kbd_send env s f.1 f.2) hwf1
      (by rw [e2]; exact hwait)
    have hs : send_all env s (f :: rest) = send_all env (archie_kbd_send env s f.1 f.2) rest :=
      rfl
    rw [hs]
    refine ⟨by rw [i1, e2], by rw [i2, e1], ?_⟩
    rcases Nat.lt_or_ge (queue_count s) 7 with hlt | hge
    · refine ⟨f :: q, hq.cons₂ f, ?_⟩
      rw [i3, (e5 hlt).1]
      simp
    · have h7 : queue_count s = 7 := Nat.le_antisymm (queue_count_le s) hge
      refine ⟨q, hq.cons f, ?_⟩
      rw [i3, (e6 h7).1]

/-- Frames with wait-state targets sent on a link that is not waiting and whose queue is
empty: the first is transmitted, the others are queued in order, none is dropped. -/
theorem send_all_idle (env : Env) (f : Nat × Nat) (rest : List (Nat × Nat)) (s : State)
    (hwf : QueueWF s)
    (hidle : s.kbd_state ≠ STATE_WAIT4ACK1 ∧ s.kbd_state ≠ STATE_WAIT4ACK2)
    (hempty : s.tx_queue_rptr = s.tx_queue_wptr)
    (hf : f.1 = STATE_WAIT4ACK1 ∨ f.1 = STATE_WAIT4ACK2) (hroom : rest.length ≤ 7) :
    (send_all env s (f :: rest)).kbd_state = f.1 ∧
    (send_all env s (f :: rest)).tx_log = s.tx_log ++ [⟨s.kbd_state, f.1, f.2⟩] ∧
    (send_all env s (f :: rest)).overflows = s.overflows ∧
    QueueWF (send_all env s (f :: rest)) ∧
    queue_frames (send_all env s (f :: rest)) = rest := by
  obtain ⟨d1, d2, _, _, _, d6, d7, d8⟩ := send_direct_fields env s f.1 f.2 hidle
  have hwf1 := send_wf env s f.1 f.2 hwf
  have he1 : (archie_kbd_send env s f.1 f.2).tx_queue_rptr =
      (archie_kbd_send env s f.1 f.2).tx_queue_wptr := by rw [d6, d7]; exact hempty
  have hc1 : queue_count (archie_kbd_send env s f.1 f.2) = 0 :=
    (queue_empty_iff _ hwf1).mp he1
  obtain ⟨i1, i2, i3, i4, i5⟩ := send_all_queued env rest (archie_kbd_send env s f.1 f.2)
    hwf1 (by rw [d1]; exact hf) (by omega)
  have hs : send_all env s (f :: rest) = send_all env (archie_kbd_send env s f.1 f.2) rest :=
    rfl
  rw [hs]
  refine ⟨by rw [i1, d1], by rw [i2, d2], by rw [i3, d8], i4, ?_⟩
  rw [i5, queue_frames_of_empty _ he1]
  rfl

/-- When it reports, the motion block hands the two motion frames to `archie_kbd_send`
and clears the accumulator. -/
theorem mouse_flush_eq (env : Env) (s : State) (hidle : s.kbd_state = STATE_IDLE)
    (hmouse : s.flags &&& FLAG_MOUSE_ENABLED ≠ 0) (hnz : s.mouse_x ≠ 0 ∨ s.mouse_y ≠ 0) :
    mouse_flush env s =
      { send_all env s [(STATE_WAIT4ACK1, low7 s.mouse_x), (STATE_WAIT4ACK2, low7 s.mouse_y)]
        with mouse_x := 0, mouse_y := 0 } := by
  unfold mouse_flush
  rw [if_pos ⟨hmouse, hnz⟩, if_pos hidle]
  dsimp only
  rw [(send_mouse env s STATE_WAIT4ACK1 (low7 s.mouse_x)).2]
  rfl

theorem mouse_flush_none (env : Env) (s : State)
    (h : ¬ ((s.flags &&& FLAG_MOUSE_ENABLED ≠ 0 ∧ (s.mouse_x ≠ 0 ∨ s.mouse_y ≠ 0)) ∧
      s.kbd_state = STATE_IDLE)) :
    mouse_flush env s = s := by
  unfold mouse_flush
  by_cases h1 : s.flags &&& FLAG_MOUSE_ENABLED ≠ 0 ∧ (s.mouse_x ≠ 0 ∨ s.mouse_y ≠ 0)
  · rw [if_pos h1, if_neg (fun h2 => h ⟨h1, h2⟩)]
  · rw [if_neg h1]

/-- The frames the motion block hands over and transmits: none, or the two motion
frames, whose bytes are below `0x80`. -/
theorem mouse_flush_logs (env : Env) (s : State) :
    ∃ frames txs, (mouse_flush env s).send_log = s.send_log ++ frames ∧
      (mouse_flush env s).tx_log = s.tx_log ++ txs ∧
      frames.length ≤ 2 ∧ (∀ f ∈ frames, f.2 < 0x80) ∧ (∀ e ∈ txs, e.byte < 0x80) := by
  by_cases h : (s.flags &&& FLAG_MOUSE_ENABLED ≠ 0 ∧ (s.mouse_x ≠ 0 ∨ s.mouse_y ≠ 0)) ∧
      s.kbd_state = STATE_IDLE
  · obtain ⟨f1, f2, _⟩ := mouse_flush_idle_logs env s h.2 h.1.1 h.1.2
    refine ⟨_, _, f2, f1, by simp, ?_, ?_⟩
    · intro f hf
      simp only [List.mem_cons, List.mem_singleton, List.mem_nil_iff, or_false] at hf
      rcases hf with hf | hf <;> rw [hf] <;> exact low7_lt _
    · intro e he
      rw [List.mem_singleton] at he
      rw [he]
      exact low7_lt _
  · rw [mouse_flush_none env s h]
    exact ⟨[], [], by simp, by simp, by simp, by simp, by simp⟩

/-- C17: a call `archie_mouse(b, x, y)` with signed 8-bit deltas made while the link waits
for an ack transmits nothing and keeps `kbd_state`; the only frames it hands to
`archie_kbd_send`, and so the only frames it can add to the queue, are the button frames
(none with key scanning disabled), whose bytes are at least `0xc0`, so no motion frame;
and the accumulator becomes `clamp(mouse_x + x)`, `clamp(mouse_y - y)`. -/
theorem busy_preserves_motion (env : Env) (s : State) (b : Nat) (x y : Int)
    (hbusy : s.kbd_state = STATE_WAIT4ACK1 ∨ s.kbd_state = STATE_WAIT4ACK2)
    (hwf : QueueWF s)
    (hx : -128 ≤ x ∧ x ≤ 127) (hy : -128 ≤ y ∧ y ≤ 127)
    (hax : -64 ≤ s.mouse_x ∧ s.mouse_x ≤ 63) (hay : -64 ≤ s.mouse_y ∧ s.mouse_y ≤ 63) :
    (archie_mouse env s b x y).tx_log = s.tx_log ∧
    (archie_mouse env s b x y).kbd_state = s.kbd_state ∧
    (archie_mouse env s b x y).send_log =
      s.send_log ++ (if s.flags &&& FLAG_SCAN_ENABLED ≠ 0 then button_frames b s.buts else []) ∧
    (∃ q, q.Sublist (if s.flags &&& FLAG_SCAN_ENABLED ≠ 0 then button_frames b s.buts else []) ∧
      queue_frames (archie_mouse env s b x y) = queue_frames s ++ q) ∧
    (∀ f ∈ button_frames b s.buts, 0xc0 ≤ f.2) ∧
    (archie_mouse env s b x y).mouse_x = clamp_spec (s.mouse_x + x) ∧
    (archie_mouse env s b x y).mouse_y = clamp_spec (s.mouse_y - y) := by
  have hpast : STATE_RAK2 < s.kbd_state := by rcases hbusy with h | h <;> rw [h] <;> decide
  have hni : (mouse_accumulate s x y).kbd_state ≠ STATE_IDLE := by
    show s.kbd_state ≠ STATE_IDLE
    rcases hbusy with h | h <;> rw [h] <;> decide
  have hm := archie_mouse_past_handshake env s b x y hpast
  rw [mouse_flush_busy env _ hni] at hm
  obtain ⟨a1, a2, _⟩ := mouse_accumulate_fields s x y
  rw [toShort_of_range _ (by omega) (by omega), mouse_limit_eq_clamp] at a1 a2
  have hbytes : ∀ f ∈ button_frames b s.buts, 0xc0 ≤ f.2 :=
    fun f hf => ((button_frames_frames b s.buts).2 f hf).1
  by_cases hscan : s.flags &&& FLAG_SCAN_ENABLED ≠ 0
  · have he := mouse_buttons_eq env (mouse_accumulate s x y) b hscan
    have hb : (mouse_accumulate s x y).buts = s.buts := rfl
    rw [hb] at he
    rw [he] at hm
    obtain ⟨g1, g2, q, hq, g3⟩ := send_all_busy env (button_frames b s.buts)
      (mouse_accumulate s x y) hwf hbusy
    obtain ⟨k1, _, _, k4, k5⟩ := send_all_fields env (button_frames b s.buts)
      (mouse_accumulate s x y)
    rw [hm, if_pos hscan]
    exact ⟨g2, g1, k1, ⟨q, hq, g3⟩, hbytes, by rw [← a1]; exact k4, by rw [← a2]; exact k5⟩
  · have he := mouse_buttons_off env (mouse_accumulate s x y) b (not_not.mp hscan)
    rw [he] at hm
    rw [hm, if_neg hscan]
    exact ⟨rfl, rfl, by simp [mouse_accumulate], ⟨[], List.Sublist.refl _, by simp; rfl⟩,
      hbytes, a1, a2⟩

/-- C17 at a sample input: the pointer event `(b, x, y) = (1, 100, -100)` on
`busy_both_state`, which waits for the first ack with the mouse enabled.  Nothing is
transmitted, only the two frames of button 0 are handed over, and the accumulator holds
`(63, 63)`; the same event on the idle link would transmit the motion byte `63`. -/
theorem busy_preserves_motion_witness :
    busy_both_state.kbd_state = STATE_WAIT4ACK1 ∧
    busy_both_state.flags &&& FLAG_MOUSE_ENABLED ≠ 0 ∧
    (archie_mouse quiet_env busy_both_state 1 100 (-100)).tx_log = busy_both_state.tx_log ∧
    (archie_mouse quiet_env busy_both_state 1 100 (-100)).send_log =
      busy_both_state.send_log ++
        (if busy_both_state.flags &&& FLAG_SCAN_ENABLED ≠ 0 then
          button_frames 1 busy_both_state.buts else []) ∧
    button_frames 1 busy_both_state.buts =
      [(STATE_WAIT4ACK1, 0xc7), (STATE_WAIT4ACK2, 0xc0)] ∧
    (archie_mouse quiet_env busy_both_state 1 100 (-100)).mouse_x =
      clamp_spec (busy_both_state.mouse_x + 100) ∧
    (archie_mouse quiet_env busy_both_state 1 100 (-100)).mouse_y =
      clamp_spec (busy_both_state.mouse_y - -100) ∧
    clamp_spec (busy_both_state.mouse_x + 100) = 63 ∧
    clamp_spec (busy_both_state.mouse_y - -100) = 63 ∧
    sent_bytes (archie_mouse quiet_env { busy_both_state with kbd_state := STATE_IDLE }
      1 100 (-100)) = [63] :=
  ⟨by decide, by decide,
    (busy_preserves_motion quiet_env busy_both_state 1 100 (-100) (by decide) (by decide)
      (by decide) (by decide) (by decide) (by decide)).1,
    (busy_preserves_motion quiet_env busy_both_state 1 100 (-100) (by decide) (by decide)
      (by decide) (by decide) (by decide) (by decide)).2.2.1,
    by decide,
    (busy_preserves_motion quiet_env busy_both_state 1 100 (-100) (by decide) (by decide)
      (by decide) (by decide) (by decide) (by decide)).2.2.2.2.2.1,
    (busy_preserves_motion quiet_env busy_both_state 1 100 (-100) (by decide) (by decide)
      (by decide) (by decide) (by decide) (by decide)).2.2.2.2.2.2,
    by decide, by decide, by decide⟩

/-- C18: with key scanning disabled the result of `archie_mouse(b, x, y)` does not depend
on `b`: it is what the accumulator and motion blocks produce.  The stored button state is
unchanged, and every frame handed to `archie_kbd_send` or transmitted during the call has
a byte below `0x80`, while every button frame has a byte of at least `0xc0`. -/
theorem buttons_ignored (env : Env) (s : State) (b : Nat) (x y : Int)
    (hscan : s.flags &&& FLAG_SCAN_ENABLED = 0) :
    archie_mouse env s b x y =
      (if s.kbd_state ≤ STATE_RAK2 then mouse_accumulate s x y
        else mouse_flush env (mouse_accumulate s x y)) ∧
    (∀ b', archie_mouse env s b' x y = archie_mouse env s b x y) ∧
    (archie_mouse env s b x y).buts = s.buts ∧
    (∃ frames txs, (archie_mouse env s b x y).send_log = s.send_log ++ frames ∧
      (archie_mouse env s b x y).tx_log = s.tx_log ++ txs ∧
      (∀ f ∈ frames, f.2 < 0x80) ∧ (∀ e ∈ txs, e.byte < 0x80)) ∧
    (∀ b' buts' f, f ∈ button_frames b' buts' → 0xc0 ≤ f.2) := by
  have hf := mouse_flush_flags env (mouse_accumulate s x y)
  have key : ∀ b', archie_mouse env s b' x y =
      (if s.kbd_state ≤ STATE_RAK2 then mouse_accumulate s x y
        else mouse_flush env (mouse_accumulate s x y)) := by
    intro b'
    unfold archie_mouse
    dsimp only
    have hk : (mouse_accumulate s x y).kbd_state = s.kbd_state := rfl
    rw [hk, mouse_buttons_off env _ b' (by rw [hf.1]; exact hscan)]
  refine ⟨key b, fun b' => by rw [key b', key b], ?_, ?_,
    fun b' buts' f hf => ((button_frames_frames b' buts').2 f hf).1⟩
  · rw [key b]
    split
    · rfl
    · exact hf.2
  · rw [key b]
    split
    · exact ⟨[], [], by simp [mouse_accumulate], by simp [mouse_accumulate], by simp, by simp⟩
    · obtain ⟨frames, txs, l1, l2, _, l4, l5⟩ := mouse_flush_logs env (mouse_accumulate s x y)
      exact ⟨frames, txs, l1, l2, l4, l5⟩

/-- C18 at a sample input: all three buttons pressed while key scanning is disabled. -/
theorem buttons_ignored_witness :
    idle_mouse_state.flags &&& FLAG_SCAN_ENABLED = 0 ∧
    (archie_mouse quiet_env idle_mouse_state 7 5 (-3)).buts = idle_mouse_state.buts ∧
    archie_mouse quiet_env idle_mouse_state 0 5 (-3) =
      archie_mouse quiet_env idle_mouse_state 7 5 (-3) :=
  ⟨by decide,
    (buttons_ignored quiet_env idle_mouse_state 7 5 (-3) (by decide)).2.2.1,
    (buttons_ignored quiet_env idle_mouse_state 7 5 (-3) (by decide)).2.1 0⟩

theorem sent_frames_of_log (s s' : State) (l : List TxEvent)
    (h : s'.tx_log = s.tx_log ++ l) :
    sent_frames s' = sent_frames s ++ l.map TxEvent.frame := by
  simp [sent_frames, h]

/-- The motion block on a link past the handshake with an empty queue drops nothing;
afterwards the link waits with at most one frame queued, or the queue is still empty. -/
theorem flush_no_overflow (env : Env) (s : State) (hwf : QueueWF s)
    (hempty : s.tx_queue_rptr = s.tx_queue_wptr) :
    (mouse_flush env s).overflows = s.overflows ∧
    QueueWF (mouse_flush env s) ∧
    ((((mouse_flush env s).kbd_state = STATE_WAIT4ACK1 ∨
          (mouse_flush env s).kbd_state = STATE_WAIT4ACK2) ∧
        queue_count (mouse_flush env s) ≤ 1) ∨
      ((mouse_flush env s).kbd_state = s.kbd_state ∧
        (mouse_flush env s).tx_queue_rptr = (mouse_flush env s).tx_queue_wptr)) ∧
    ∃ frames, (mouse_flush env s).send_log = s.send_log ++ frames ∧ frames.length ≤ 2 ∧
      sent_frames (mouse_flush env s) ++ queue_frames (mouse_flush env s) =
        sent_frames s ++ frames := by
  by_cases h : (s.flags &&& FLAG_MOUSE_ENABLED ≠ 0 ∧ (s.mouse_x ≠ 0 ∨ s.mouse_y ≠ 0)) ∧
      s.kbd_state = STATE_IDLE
  · have hidle : s.kbd_state ≠ STATE_WAIT4ACK1 ∧ s.kbd_state ≠ STATE_WAIT4ACK2 := by
      rw [h.2]; exact ⟨by decide, by decide⟩
    obtain ⟨i1, i2, i3, i4, i5⟩ := send_all_idle env (STATE_WAIT4ACK1, low7 s.mouse_x)
      [(STATE_WAIT4ACK2, low7 s.mouse_y)] s hwf hidle hempty (Or.inl rfl) (by simp)
    obtain ⟨k1, _⟩ := send_all_fields env
      [(STATE_WAIT4ACK1, low7 s.mouse_x), (STATE_WAIT4ACK2, low7 s.mouse_y)] s
    rw [mouse_flush_eq env s h.2 h.1.1 h.1.2]
    refine ⟨i3, i4, Or.inl ⟨Or.inl i1, ?_⟩, _, k1, by simp, ?_⟩
    · have hl := queue_frames_length (send_all env s
        [(STATE_WAIT4ACK1, low7 s.mouse_x), (STATE_WAIT4ACK2, low7 s.mouse_y)])
      rw [i5] at hl
      show queue_count (send_all env s
        [(STATE_WAIT4ACK1, low7 s.mouse_x), (STATE_WAIT4ACK2, low7 s.mouse_y)]) ≤ 1
      rw [← hl]
      simp
    · show sent_frames (send_all env s
          [(STATE_WAIT4ACK1, low7 s.mouse_x), (STATE_WAIT4ACK2, low7 s.mouse_y)]) ++
        queue_frames (send_all env s
          [(STATE_WAIT4ACK1, low7 s.mouse_x), (STATE_WAIT4ACK2, low7 s.mouse_y)]) = _
      rw [i5, sent_frames_of_log _ _ _ i2]
      simp [TxEvent.frame]
  · rw [mouse_flush_none env s h]
    exact ⟨rfl, hwf, Or.inr ⟨rfl, hempty⟩, [], by simp, by simp,
      by simp [queue_frames_of_empty s hempty]⟩

/-- The button block on a link that waits with at most one frame queued, or that does not
wait and has an empty queue, drops nothing. -/
theorem buttons_no_overflow (env : Env) (t : State) (b : Nat) (hwf : QueueWF t)
    (hq : ((t.kbd_state = STATE_WAIT4ACK1 ∨ t.kbd_state = STATE_WAIT4ACK2) ∧
        queue_count t ≤ 1) ∨
      ((t.kbd_state ≠ STATE_WAIT4ACK1 ∧ t.kbd_state ≠ STATE_WAIT4ACK2) ∧
        t.tx_queue_rptr = t.tx_queue_wptr)) :
    (mouse_buttons env t b).overflows = t.overflows ∧
    ∃ frames, (mouse_buttons env t b).send_log = t.send_log ++ frames ∧ frames.length ≤ 6 ∧
      sent_frames (mouse_buttons env t b) ++ queue_frames (mouse_buttons env t b) =
        sent_frames t ++ queue_frames t ++ frames := by
  by_cases hscan : t.flags &&& FLAG_SCAN_ENABLED ≠ 0
  · obtain ⟨hlen, hfr⟩ := button_frames_frames b t.buts
    obtain ⟨k1, _⟩ := send_all_fields env (button_frames b t.buts) t
    rw [mouse_buttons_eq env t b hscan]
    rcases hq with ⟨hwait, hc⟩ | ⟨hidle, hempty⟩
    · obtain ⟨_, i2, i3, _, i5⟩ := send_all_queued env (button_frames b t.buts) t hwf hwait
        (by omega)
      refine ⟨i3, _, k1, hlen, ?_⟩
      show sent_frames (send_all env t (button_frames b t.buts)) ++
        queue_frames (send_all env t (button_frames b t.buts)) = _
      have hsf : sent_frames (send_all env t (button_frames b t.buts)) = sent_frames t := by
        simp [sent_frames, i2]
      rw [i5, hsf, List.append_assoc]
    · refine ⟨?_, _, k1, hlen, ?_⟩
      · show (send_all env t (button_frames b t.buts)).overflows = t.overflows
        rcases hbf : button_frames b t.buts with _ | ⟨f, rest⟩
        · rfl
        · rw [hbf] at hlen hfr
          exact (send_all_idle env f rest t hwf hidle hempty
            (hfr f (List.mem_cons_self _ _)).2
            (by simp only [List.length_cons] at hlen; omega)).2.2.1
      · show sent_frames (send_all env t (button_frames b t.buts)) ++
          queue_frames (send_all env t (button_frames b t.buts)) = _
        rcases hbf : button_frames b t.buts with _ | ⟨f, rest⟩
        · simp [send_all]
        · rw [hbf] at hlen hfr
          obtain ⟨_, i2, _, _, i5⟩ := send_all_idle env f rest t hwf hidle hempty
            (hfr f (List.mem_cons_self _ _)).2
            (by simp only [List.length_cons] at hlen; omega)
          rw [i5, sent_frames_of_log _ _ _ i2, queue_frames_of_empty t hempty]
          simp [TxEvent.frame]
  · rw [mouse_buttons_off env t b (not_not.mp hscan)]
    exact ⟨rfl, [], by simp, by simp, by simp⟩

/-- C19: on a link past the handshake (`STATE_IDLE`, `STATE_WAIT4ACK1` or
`STATE_WAIT4ACK2`) with an empty queue, one `archie_mouse` call never takes the overflow
branch of `archie_kbd_enqueue`: it hands at most 8 frames to `archie_kbd_send`, and these
are, in order, exactly what the call adds to the frames transmitted and the frames
queued. -/
theorem pointer_event_no_overflow (env : Env) (s : State) (b : Nat) (x y : Int)
    (hstate : s.kbd_state = STATE_IDLE ∨ s.kbd_state = STATE_WAIT4ACK1 ∨
      s.kbd_state = STATE_WAIT4ACK2)
    (hwf : QueueWF s) (hempty : s.tx_queue_rptr = s.tx_queue_wptr) :
    (archie_mouse env s b x y).overflows = s.overflows ∧
    ∃ frames, (archie_mouse env s b x y).send_log = s.send_log ++ frames ∧
      frames.length ≤ 8 ∧
      sent_frames (archie_mouse env s b x y) ++ queue_frames (archie_mouse env s b x y) =
        sent_frames s ++ frames := by
  have hpast : STATE_RAK2 < s.kbd_state := by
    rcases hstate with h | h | h <;> rw [h] <;> decide
  have hwf' : QueueWF (mouse_accumulate s x y) := hwf
  have hempty' : (mouse_accumulate s x y).tx_queue_rptr =
      (mouse_accumulate s x y).tx_queue_wptr := hempty
  have hk' : (mouse_accumulate s x y).kbd_state = s.kbd_state := rfl
  obtain ⟨o1, wf1, hq1, frames1, l1, n1, q1⟩ :=
    flush_no_overflow env (mouse_accumulate s x y) hwf' hempty'
  have hq : (((mouse_flush env (mouse_accumulate s x y)).kbd_state = STATE_WAIT4ACK1 ∨
        (mouse_flush env (mouse_accumulate s x y)).kbd_state = STATE_WAIT4ACK2) ∧
        queue_count (mouse_flush env (mouse_accumulate s x y)) ≤ 1) ∨
      (((mouse_flush env (mouse_accumulate s x y)).kbd_state ≠ STATE_WAIT4ACK1 ∧
        (mouse_flush env (mouse_accumulate s x y)).kbd_state ≠ STATE_WAIT4ACK2) ∧
        (mouse_flush env (mouse_accumulate s x y)).tx_queue_rptr =
          (mouse_flush env (mouse_accumulate s x y)).tx_queue_wptr) := by
    rcases hq1 with h | ⟨hk, he⟩
    · exact Or.inl h
    · rw [hk, hk']
      rcases hstate with h | h | h
      · exact Or.inr ⟨by rw [h]; exact ⟨by decide, by decide⟩, he⟩
      · exact Or.inl ⟨Or.inl h, by rw [(queue_empty_iff _ wf1).mp he]; omega⟩
      · exact Or.inl ⟨Or.inr h, by rw [(queue_empty_iff _ wf1).mp he]; omega⟩
  obtain ⟨o2, frames2, l2, n2, q2⟩ :=
    buttons_no_overflow env (mouse_flush env (mouse_accumulate s x y)) b wf1 hq
  rw [archie_mouse_past_handshake env s b x y hpast]
  refine ⟨by rw [o2, o1]; rfl, frames1 ++ frames2, ?_, ?_, ?_⟩
  · rw [l2, l1]
    simp [mouse_accumulate]
  · rw [List.length_append]
    omega
  · rw [q2, q1]
    simp [sent_frames, mouse_accumulate]

/-- C19 at a sample input: an idle link with both modes enabled, all three buttons
pressed and motion in both axes: one frame is transmitted, seven are queued, none is
dropped. -/
theorem pointer_event_no_overflow_witness :
    (archie_mouse quiet_env { idle_mouse_state with flags := 3 } 7 (-128) 127).overflows =
      ({ idle_mouse_state with flags := 3 } : State).overflows ∧
    queue_count (archie_mouse quiet_env { idle_mouse_state with flags := 3 } 7 (-128) 127) =
      7 :=
  ⟨(pointer_event_no_overflow quiet_env { idle_mouse_state with flags := 3 } 7 (-128) 127
      (by decide) (by decide) (by decide)).1,
    by decide⟩

/-! ## C20: identity request -/

theorem handle_rx_RQID (env : Env) (s : State) :
    handle_rx env s RQID = archie_kbd_send env s STATE_IDLE 0x81 := by
  unfold handle_rx
  rw [if_neg (by decide), if_neg (by decide), if_neg (by decide), if_pos rfl]
  rfl

/-- C20, refuted: in `full_queue_trace` the byte `RQID` arrives while the link waits for
the first ack with 7 frames queued; the frame `(STATE_IDLE, 0x81)` is not queued but
dropped. -/
theorem identity_request_counterexample :
    (run init_state (full_queue_trace.take 5)).kbd_state = STATE_WAIT4ACK1 ∧
    queue_count (run init_state (full_queue_trace.take 5)) = 7 ∧
    (run init_state full_queue_trace).kbd_state = STATE_WAIT4ACK1 ∧
    queue_frames (run init_state full_queue_trace) =
      queue_frames (run init_state (full_queue_trace.take 5)) ∧
    (STATE_IDLE, 0x81) ∉ queue_frames (run init_state full_queue_trace) ∧
    sent_bytes (run init_state full_queue_trace) =
      sent_bytes (run init_state (full_queue_trace.take 5)) ∧
    (run init_state (full_queue_trace.take 5)).overflows = 0 ∧
    (run init_state full_queue_trace).overflows = 1 := by
  decide

/-- C20, amended: a poll (timer not expired) that receives `RQID` while `kbd_state` is
`STATE_HRST`, `STATE_RAK1` or `STATE_RAK2` transmits `0x81` at once and leaves the link in
`STATE_IDLE`; in `STATE_WAIT4ACK1` or `STATE_WAIT4ACK2` it transmits nothing, keeps
`kbd_state` and appends the frame `(STATE_IDLE, 0x81)` to the queue, or drops it when the
queue already holds 7 frames. -/
theorem identity_request_amended (env : Env) (s : State) (hrx : env.rx = some RQID)
    (ht : env.CheckTimer s.ack_timeout = false) :
    (s.kbd_state = STATE_HRST ∨ s.kbd_state = STATE_RAK1 ∨ s.kbd_state = STATE_RAK2 →
      (archie_handle_kbd env s).tx_log = s.tx_log ++ [⟨s.kbd_state, STATE_IDLE, 0x81⟩] ∧
      sent_bytes (archie_handle_kbd env s) = sent_bytes s ++ [0x81] ∧
      (archie_handle_kbd env s).kbd_state = STATE_IDLE) ∧
    (s.kbd_state = STATE_WAIT4ACK1 ∨ s.kbd_state = STATE_WAIT4ACK2 → QueueWF s →
      (archie_handle_kbd env s).tx_log = s.tx_log ∧
      (archie_handle_kbd env s).kbd_state = s.kbd_state ∧
      (queue_count s < 7 →
        queue_frames (archie_handle_kbd env s) = queue_frames s ++ [(STATE_IDLE, 0x81)]) ∧
      (queue_count s = 7 →
        queue_frames (archie_handle_kbd env s) = queue_frames s ∧
        (archie_handle_kbd env s).overflows = s.overflows + 1)) := by
  rw [poll_rx env s RQID hrx ht, handle_rx_RQID]
  constructor
  · intro h
    have hd : s.kbd_state ≠ STATE_WAIT4ACK1 ∧ s.kbd_state ≠ STATE_WAIT4ACK2 := by
      rcases h with h | h | h <;> rw [h] <;> exact ⟨by decide, by decide⟩
    obtain ⟨d1, d2, _⟩ := send_direct_fields env s STATE_IDLE 0x81 hd
    exact ⟨d2, by rw [sent_bytes_of_log _ _ _ d2]; rfl, d1⟩
  · intro h hwf
    obtain ⟨e1, e2, _, _, e5, e6⟩ := send_queued_effect env s STATE_IDLE 0x81 hwf h
    exact ⟨e1, e2, fun hlt => (e5 hlt).1, e6⟩

/-- C20, amended, at sample inputs: `RQID` received right after the first handshake step,
and `RQID` received while `one_frame_state` waits for an ack. -/
theorem identity_request_amended_witness :
    (run init_state [.poll (rx_env HRST)]).kbd_state = STATE_RAK1 ∧
    (archie_handle_kbd (rx_env RQID) (run init_state [.poll (rx_env HRST)])).kbd_state =
      STATE_IDLE ∧
    queue_frames (archie_handle_kbd (rx_env RQID) one_frame_state) =
      queue_frames one_frame_state ++ [(STATE_IDLE, 0x81)] :=
  ⟨by decide,
    ((identity_request_amended (rx_env RQID) (run init_state [.poll (rx_env HRST)]) rfl
      rfl).1 (Or.inr (Or.inl (by decide)))).2.2,
    ((identity_request_amended (rx_env RQID) one_frame_state rfl rfl).2 (Or.inl (by decide))
      (by decide)).2.2.1 (by decide)⟩

end Archie
